import Mathlib

/-!
# pubkemail client: feed ingestion, link verification and dispatch

A shallow embedding of the Go sources `common.term.go`, `common.go`,
`helper.go`, `common.web.go` and `fwd.go` (`checkMetaLink`, `getContentMsg`,
`termAddrChecker`, `termReadFeed`, `addrMail.incrNewMailCnt`, `newEntity`,
`remotePublicKey`, `sharedKey`, `unmarshalWIF`, the add-WIF case of
`webIndexHandler`, `fwdSMTPEmail`), followed by the properties established
about them.

Conventions of the embedding

* Go `string` values are Lean `String`s, Go `[]byte` values are `List Nat`
  (every element is read modulo 256 where it is consumed).
* Go maps are association lists with unique keys (`GoMap`); a lookup of a
  missing key yields the zero value, as in Go.
* Calls that leave the process (HTTP, OpenPGP, the RSS parser, the URL parser,
  the random source, SMTP) are fields of a `World` record: the code is a
  function of what those calls return. The library functions of the key
  derivation (base58, WIF and address coding, PEM, ASN.1, point decompression
  and multiplication) are fields of a `KeyLib` record.
* Side effects that the outside can observe (log lines, HTTP requests, calls of
  a forwarding function, channel sends to the terminal view, sleeps) are
  appended to a trace of `Event`s.
* A goroutine is a step function over its loop iterations; the case taken by a
  `select` is an input of the step.
-/

namespace Pubkemail

/-! ## crypto/sha256, crypto/hmac, encoding/hex -/

namespace SHA256

/-- Round constants of SHA-256 (FIPS 180-4, section 4.2.2). -/
def K : List Nat := [
  0x428a2f98, 0x71374491, 0xb5c0fbcf, 0xe9b5dba5,
  0x3956c25b, 0x59f111f1, 0x923f82a4, 0xab1c5ed5,
  0xd807aa98, 0x12835b01, 0x243185be, 0x550c7dc3,
  0x72be5d74, 0x80deb1fe, 0x9bdc06a7, 0xc19bf174,
  0xe49b69c1, 0xefbe4786, 0x0fc19dc6, 0x240ca1cc,
  0x2de92c6f, 0x4a7484aa, 0x5cb0a9dc, 0x76f988da,
  0x983e5152, 0xa831c66d, 0xb00327c8, 0xbf597fc7,
  0xc6e00bf3, 0xd5a79147, 0x06ca6351, 0x14292967,
  0x27b70a85, 0x2e1b2138, 0x4d2c6dfc, 0x53380d13,
  0x650a7354, 0x766a0abb, 0x81c2c92e, 0x92722c85,
  0xa2bfe8a1, 0xa81a664b, 0xc24b8b70, 0xc76c51a3,
  0xd192e819, 0xd6990624, 0xf40e3585, 0x106aa070,
  0x19a4c116, 0x1e376c08, 0x2748774c, 0x34b0bcb5,
  0x391c0cb3, 0x4ed8aa4a, 0x5b9cca4f, 0x682e6ff3,
  0x748f82ee, 0x78a5636f, 0x84c87814, 0x8cc70208,
  0x90befffa, 0xa4506ceb, 0xbef9a3f7, 0xc67178f2]

/-- Addition of 32-bit words. -/
def add32 (a b : Nat) : Nat := (a + b) % 2 ^ 32

/-- Rotate a 32-bit word right by `n` bits. -/
def rotr (x n : Nat) : Nat := ((x >>> n) ||| (x <<< (32 - n))) % 2 ^ 32

def ch (x y z : Nat) : Nat := (x &&& y) ^^^ ((x ^^^ 0xffffffff) &&& z)

def maj (x y z : Nat) : Nat := (x &&& y) ^^^ (x &&& z) ^^^ (y &&& z)

def bsig0 (x : Nat) : Nat := rotr x 2 ^^^ rotr x 13 ^^^ rotr x 22

def bsig1 (x : Nat) : Nat := rotr x 6 ^^^ rotr x 11 ^^^ rotr x 25

def ssig0 (x : Nat) : Nat := rotr x 7 ^^^ rotr x 18 ^^^ (x >>> 3)

def ssig1 (x : Nat) : Nat := rotr x 17 ^^^ rotr x 19 ^^^ (x >>> 10)

/-- The eight working words of the hash state. -/
structure State where
  a : Nat
  b : Nat
  c : Nat
  d : Nat
  e : Nat
  f : Nat
  g : Nat
  h : Nat
deriving DecidableEq, Repr

/-- Initial hash value (FIPS 180-4, section 5.3.3). -/
def init : State :=
  ⟨0x6a09e667, 0xbb67ae85, 0x3c6ef372, 0xa54ff53a,
   0x510e527f, 0x9b05688c, 0x1f83d9ab, 0x5be0cd19⟩

/-- Padding: a `0x80` byte, zero bytes up to 56 modulo 64, then the bit length
as a 64-bit big-endian integer. -/
def pad (msg : List Nat) : List Nat :=
  let n := msg.length
  let bits := (8 * n) % 2 ^ 64
  msg.map (· % 256) ++ [0x80] ++ List.replicate ((119 - n % 64) % 64) 0
    ++ (List.range 8).map (fun i => (bits >>> (8 * (7 - i))) % 256)

/-- Big-endian 32-bit words of a byte list (trailing bytes short of a word
are dropped; padded input has none). -/
def toWords : List Nat → List Nat
  | b0 :: b1 :: b2 :: b3 :: rest =>
      (b0 * 2 ^ 24 + b1 * 2 ^ 16 + b2 * 2 ^ 8 + b3) :: toWords rest
  | _ => []

/-- Extend the message schedule by `n` further words. -/
def extend : Nat → List Nat → List Nat
  | 0, w => w
  | n + 1, w =>
      let t := w.length
      let x := add32 (add32 (ssig1 (w.getD (t - 2) 0)) (w.getD (t - 7) 0))
                 (add32 (ssig0 (w.getD (t - 15) 0)) (w.getD (t - 16) 0))
      extend n (w ++ [x])

/-- One round of the compression function. -/
def round (s : State) (kw : Nat × Nat) : State :=
  let t1 := add32 (add32 (add32 s.h (bsig1 s.e)) (ch s.e s.f s.g)) (add32 kw.1 kw.2)
  let t2 := add32 (bsig0 s.a) (maj s.a s.b s.c)
  ⟨add32 t1 t2, s.a, s.b, s.c, add32 s.d t1, s.e, s.f, s.g⟩

/-- Compression of one 16-word block into the chaining value. -/
def compress (s : State) (block : List Nat) : State :=
  let w := extend 48 block
  let r := (K.zip w).foldl round s
  ⟨add32 s.a r.a, add32 s.b r.b, add32 s.c r.c, add32 s.d r.d,
   add32 s.e r.e, add32 s.f r.f, add32 s.g r.g, add32 s.h r.h⟩

/-- Process `n` consecutive 16-word blocks. -/
def absorb : Nat → State → List Nat → State
  | 0, s, _ => s
  | n + 1, s, ws => absorb n (compress s (ws.take 16)) (ws.drop 16)

/-- The four big-endian bytes of a 32-bit word. -/
def wordBytes (x : Nat) : List Nat :=
  [x / 2 ^ 24 % 256, x / 2 ^ 16 % 256, x / 2 ^ 8 % 256, x % 256]

/-- The 32 digest bytes of a state. -/
def State.bytes (s : State) : List Nat :=
  wordBytes s.a ++ wordBytes s.b ++ wordBytes s.c ++ wordBytes s.d ++
  wordBytes s.e ++ wordBytes s.f ++ wordBytes s.g ++ wordBytes s.h

/-- SHA-256 of a byte string. -/
def sum (msg : List Nat) : List Nat :=
  let ws := toWords (pad msg)
  (absorb (ws.length / 16) init ws).bytes

end SHA256

/-- HMAC-SHA256 (RFC 2104) as `hmac.New(sha256.New, key)` followed by a write of
`msg` and `Sum(nil)`: keys longer than the 64-byte block are hashed first,
shorter ones are zero-padded. -/
def hmacSHA256 (key msg : List Nat) : List Nat :=
  let k0 := if key.length > 64 then SHA256.sum key else key.map (· % 256)
  let k := k0 ++ List.replicate (64 - k0.length) 0
  SHA256.sum (k.map (· ^^^ 0x5c) ++ SHA256.sum (k.map (· ^^^ 0x36) ++ msg))

/-- One lowercase hexadecimal digit. -/
def hexDigit (n : Nat) : Char :=
  if n < 10 then Char.ofNat (48 + n) else Char.ofNat (87 + n)

/-- Lowercase hexadecimal rendering of a byte string (`hex.EncodeToString`). -/
def hexEncodeToString (bs : List Nat) : String :=
  String.mk (bs.flatMap fun b => [hexDigit (b % 256 / 16), hexDigit (b % 16)])

/-- The bytes of a string (its UTF-8 encoding). -/
def stringBytes (s : String) : List Nat :=
  s.data.flatMap fun c => (String.utf8EncodeChar c).map UInt8.toNat

/-! ## strconv.ParseInt -/

/-- The value of a non-empty string of decimal digits (`strconv.ParseUint` in
base 10, before its range check); any other byte is a syntax error. -/
def parseDigits : List Char → Option Nat
  | [] => none
  | cs => cs.foldlM (fun acc ch =>
      if ch.isDigit then some (acc * 10 + (ch.toNat - 48)) else none) 0

/-- `strconv.ParseInt(s, 10, 64)`: `none` stands for a non-nil error (syntax
or range), `some n` for the parsed value with a nil error. -/
def ParseInt (s : String) : Option Int :=
  match s.data with
  | [] => none
  | ch :: rest =>
    let neg := ch == '-'
    let digits := if ch == '+' || ch == '-' then rest else ch :: rest
    match parseDigits digits with
    | none => none
    | some un =>
      if !neg && un ≥ 2 ^ 63 then none
      else if neg && un > 2 ^ 63 then none
      else some (if neg then -(un : Int) else (un : Int))

/-! ## Data model (`common.go`) -/

/-- A Go `map[string]V`: an association list in which every key occurs once. -/
abbrev GoMap (V : Type) := List (String × V)

/-- The assignment `m[k] = v`. -/
def GoMap.insert {V : Type} : GoMap V → String → V → GoMap V
  | [], k, v => [(k, v)]
  | (k0, v0) :: rest, k, v =>
      if k0 = k then (k, v) :: rest else (k0, v0) :: GoMap.insert rest k v

/-- WIF holds everything needed to work with WIFs. -/
structure WIF where
  wif : String := ""
  addr : String := ""
  addrComp : String := ""
  currency : String := ""
  pubKey : List Nat := []
  priKey : List Nat := []
  sharedKey : List Nat := []
deriving DecidableEq, Repr

/-- AddrDisplay holds data that can be displayed on the user facing web page
about an address. -/
structure AddrDisplay where
  WIF : String := ""
  Addr : String := ""
  CurAbv : String := ""
  FwdTo : String := ""
deriving DecidableEq, Repr

/-- FwdDisplay holds data that can be displayed on the user facing webpage
about a forwarding HTTP-API or SMTP json. -/
structure FwdDisplay where
  Name : String := ""
  JSON : String := ""
deriving DecidableEq, Repr

/-- addrData holds data that can be used to work with addresses.
`feedLinksDone` is a `*sync.WaitGroup`: `none` is the nil pointer, `some n` a
wait group whose counter is `n`. `feedLinks` is the channel, as the sequence of
links sent on it. -/
structure addrData where
  isFwd : Bool := false
  feedLinksDone : Option Int := none
  feedLinks : List String := []
  wif : WIF := {}
deriving DecidableEq, Repr

/-- A `mail.Header`, i.e. `map[string][]string`. -/
abbrev Header := GoMap (List String)

/-- `mail.Header.Get` for a key that is already in canonical MIME form (such as
`From` and `Subject`): the first value stored under the key, or the empty
string. -/
def Header.Get (h : Header) (key : String) : String :=
  match h.lookup key with
  | some (v :: _) => v
  | _ => ""

/-- Message holds the email headers and raw body string. -/
structure Message where
  Header : Header := []
  Body : String := ""
deriving DecidableEq, Repr

/-- fwdEmailFunc is a function that sends email. A value is the nil function
or one of the two closures that `webIndexHandler` builds around the decoded
forwarding JSON. -/
inductive fwdEmailFunc where
  | nil
  | viaHTTPAPI (via : String)
  | viaSMTP (via : String)
deriving DecidableEq, Repr

/-- fwdData holds data that can be used to work with sending emails. -/
structure fwdData where
  fwdEmail : fwdEmailFunc := .nil
deriving DecidableEq, Repr

/-- addrMail holds the new mail w/ mutex count so that it can be atomiclly
incremented. The mutex has no content in a goroutine taken by itself; the Go
`int` counters are unbounded integers here: they start at zero and move by one
per matched feed item. -/
structure addrMail where
  NewMail : GoMap Int := []
deriving DecidableEq, Repr

/-- incrNewMailCnt incements the counter for an address atomically
(`a.NewMail[addr]++` between `Lock` and `Unlock`). -/
def addrMail.incrNewMailCnt (a : addrMail) (addr : String) : addrMail :=
  { a with NewMail := a.NewMail.insert addr ((a.NewMail.lookup addr).getD 0 + 1) }

/-- The part of `common` (with its nested `Data`, `term.check` structs) that
the checker and the feed reader use. `afterDate` is an instant in nanoseconds
since the Unix epoch; the three intervals are durations in nanoseconds. -/
structure common where
  /-- Field `c.Data.Addr.Display`. -/
  Display : GoMap AddrDisplay := []
  /-- The embedded `*addrMail` of `c.Data.Addr`. -/
  addrMail : addrMail := {}
  /-- Field `c.Data.Fwd.Display`. -/
  FwdDisplays : GoMap FwdDisplay := []
  fwdDataMap : GoMap fwdData := []
  addrsDataMap : GoMap addrData := []
  /-- Field `c.term.check.afterDate`. -/
  afterDate : Int := 0
  /-- Field `c.term.check.intervalWaitDuration`. -/
  intervalWaitDuration : Nat := 10000000000
  /-- Field `c.term.check.intervalNextDuration`. -/
  intervalNextDuration : Nat := 5000000000
  /-- Field `c.term.check.intervalResetDuration`. -/
  intervalResetDuration : Nat := 65000000000
  /-- Field `c.Data.MainContentErrText`. -/
  MainContentErrText : String := ""
  /-- Field `c.Data.MainContentInfoText`. -/
  MainContentInfoText : String := ""
  /-- Field `c.Data.FwdNameText`. -/
  FwdNameText : String := ""
  /-- Field `c.Data.FwdJSONText`. -/
  FwdJSONText : String := ""
deriving DecidableEq, Repr

/-- The expression `c.addrsDataMap[addr].wif`: the credential stored for the
address, or the zero `WIF` when the address has no entry. -/
def common.wif (c : common) (addr : String) : WIF :=
  ((c.addrsDataMap.lookup addr).getD {}).wif

/-- The expression `c.Data.Addr.NewMail[addr]`: the unread counter of the
address, zero when the address has no entry. -/
def common.newMailCnt (c : common) (addr : String) : Int :=
  (c.addrMail.NewMail.lookup addr).getD 0

/-- The call `c.Data.Addr.incrNewMailCnt(addr)`. -/
def common.incrNewMailCnt (c : common) (addr : String) : common :=
  { c with addrMail := c.addrMail.incrNewMailCnt addr }

/-! ## Effects and control flow -/

/-- What a goroutine does to the outside. -/
inductive Event where
  /-- A line written through `log`. -/
  | log (line : String)
  /-- An HTTP GET request (`http.Get`, or the one inside `gofeed`). -/
  | httpGet (url : String)
  /-- A call `fn.fwdEmail(from, subject, body, headers, isTest)`. -/
  | fwdEmail (fn : fwdEmailFunc) (sender subject body : String) (headers : Header)
      (isTest : Bool)
  /-- A send of a `viewTopData` value on `c.term.update.viewTop`. -/
  | viewTop
  /-- A call `feedLinksDone.Done()` of the checker of `addr` that returned. -/
  | wgDone (addr : String)
  /-- The call `time.Sleep(d)`. -/
  | sleep (d : Nat)
  /-- The statement `go c.termAddrChecker(addr)`. -/
  | goTermAddrChecker (addr : String)
  /-- A send of the address list on `c.term.update.viewBottom`. -/
  | viewBottom
  /-- The call `http.Redirect(w, r, r.RequestURI, http.StatusSeeOther)`. -/
  | redirect
  /-- The call `smtp.SendMail(addr, auth, from, to, msg)`; `auth` is the
  user name, password and host of `smtp.PlainAuth`, or `none` for a nil `auth`. -/
  | sendMail (addr : String) (auth : Option (String × String × String)) (sender : String)
      (rcpt : List String) (msg : String)
deriving DecidableEq, Repr

/-- Whether the event is an HTTP request. -/
def Event.isFetch : Event → Bool
  | .httpGet _ => true
  | _ => false

/-- Whether the event is a call of a forwarding function. -/
def Event.isForward : Event → Bool
  | .fwdEmail _ _ _ _ _ _ => true
  | _ => false

/-- Whether the event is a liveness update on `viewTop`. -/
def Event.isViewTop : Event → Bool
  | .viewTop => true
  | _ => false

/-- Whether the event is a sleep. -/
def Event.isSleep : Event → Bool
  | .sleep _ => true
  | _ => false

/-- Whether the event is a completion signal. -/
def Event.isDone : Event → Bool
  | .wgDone _ => true
  | _ => false

/-- Whether the event is the start of a checker goroutine. -/
def Event.isGo : Event → Bool
  | .goTermAddrChecker _ => true
  | _ => false

/-- How the execution of a statement ends: it completes (`fall`), or a
`continue`, a `break` or a run-time panic leaves it. -/
inductive Ctl where
  | fall
  | cont
  | brk
  | panic
deriving DecidableEq, Repr

/-- The result of executing a block of statements: the shared data afterwards,
the events of the block in order, and how the block ended. -/
structure Outcome where
  c : common
  events : List Event
  ctl : Ctl
deriving DecidableEq, Repr

/-- Sequencing of statements: the rest runs only when the first part completes. -/
def Outcome.andThen (o : Outcome) (rest : common → Outcome) : Outcome :=
  match o.ctl with
  | .fall => let o2 := rest o.c; ⟨o2.c, o.events ++ o2.events, o2.ctl⟩
  | _ => o

/-- A `select` (or `switch`) statement around a body: a `break` from the body
ends the statement itself, everything else passes through. -/
def Outcome.endSelect (o : Outcome) : Outcome :=
  match o.ctl with
  | .brk => { o with ctl := .fall }
  | _ => o

/-- The state of a goroutine running a `for { ... }` loop. -/
inductive Status where
  /-- The loop goes on with its next iteration. -/
  | running
  /-- The loop was left and the function returned. -/
  | returned
  /-- A panic left the function. -/
  | panicked
deriving DecidableEq, Repr

/-- What the end of a loop body means for a `for { ... }` loop: the loop goes
on after a completed body or a `continue`, and is left by a `break`. -/
def Ctl.forStatus : Ctl → Status
  | .fall => .running
  | .cont => .running
  | .brk => .returned
  | .panic => .panicked

/-! ## The outside world -/

/-- encData holds the relative information needed for GPG to encode data. -/
structure encData where
  timestamp : Int
  name : String
  comment : String
  email : String
deriving DecidableEq, Repr

/-- An `ecdh.PrivateKey` on secp256k1: the scalar bytes and the public point. -/
structure ecdhPrivateKey where
  D : List Nat
  X : Nat
  Y : Nat
deriving DecidableEq, Repr

/-- The `openpgp.Entity` built by `newEntity`, reduced to what it is built
from (the signature creation times, read from the clock, are left out). -/
structure Entity where
  data : encData
  sigKey : Nat
  encKey : ecdhPrivateKey
deriving DecidableEq, Repr

/-- An item of the RSS feed (`gofeed.Item`), reduced to the fields read. -/
structure Item where
  GUID : String := ""
  Link : String := ""
deriving DecidableEq, Repr

/-- The answers of the calls that leave the process. -/
structure World where
  /-- `url.Parse(link)` and then `u.Query().Get(key)`; `none` is a parse error. -/
  urlParse : String → Option (String → String)
  /-- `http.Get(url)`: a transport error, or the status code and the body. -/
  httpGet : String → Except String (Nat × String)
  /-- `http.StatusText(code)`. -/
  statusText : Nat → String
  /-- `bitelliptic.S256().ScalarBaseMult(k)`. -/
  scalarBaseMult : List Nat → Nat × Nat
  /-- `ecdsa.GenerateKey(bitelliptic.S256(), rand.Reader)`. -/
  generateKey : Except String Nat
  /-- `openpgp.ReadMessage` over the base64 decoding of a body with a key ring
  of one entity: an error, or the stream `UnverifiedBody`. -/
  readMessage : String → Entity → Except String String
  /-- `mail.ReadMessage` over a stream: an error, or the header and the stream
  of the body. -/
  mailReadMessage : String → Except String (Header × String)
  /-- `ioutil.ReadAll` over a stream: the bytes read and the error, if any. -/
  readAll : String → String × Option String
  /-- `gofeed.NewParser().ParseURL(url)` after its HTTP request. -/
  parseURL : String → Except String (List Item)
  /-- `smtp.SendMail(addr, auth, from, to, msg)` as a function of the server
  address, the sender, the recipients and the message: the error, if any. -/
  sendMail : String → String → List String → String → Option String

/-- The result of a Go function call: it returns a value or panics. -/
inductive GoResult (α : Type) where
  | ret (a : α)
  | panic
deriving DecidableEq, Repr

/-! ## `newEntity` (`helper.go`) and `getContentMsg` (`common.term.go`) -/

/-- Whether `packet.NewUserId` accepts a field: it rejects the characters
`(`, `)`, `<`, `>` and NUL. -/
def userIdFieldOk (s : String) : Bool :=
  s.data.all fun ch => !(ch == '(' || ch == ')' || ch == '<' || ch == '>' || ch == '\x00')

/-- newEntity combines and calculates the entity data for PGP encryption. -/
def newEntity (data : encData) (sigKey : Nat) (encKey : ecdhPrivateKey) :
    Except String Entity :=
  if userIdFieldOk data.name && userIdFieldOk data.comment && userIdFieldOk data.email then
    .ok ⟨data, sigKey, encKey⟩
  else
    .error "bad user id, invalid character found"

/-- getContentMsg grabs the content from the web and decodes the message using
the shared key based on a supplied private key. The result is the events of the
call and either the returned pair `(*Message, error)` or a panic: when
`mail.ReadMessage` fails, `msg` is nil and `msg.Body` dereferences it. -/
def getContentMsg (w : World) (wif : WIF) (contentHash : String) (ts : Int) :
    List Event × GoResult (Option Message × Option String) :=
  let contentHashURL := "https://content.pubkemail.com/v1/" ++ contentHash
  let evs := [Event.httpGet contentHashURL]
  match w.httpGet contentHashURL with
  | .error e => (evs, .ret (none, some ("HTTP from " ++ contentHashURL ++ " err: " ++ e)))
  | .ok (statusCode, body) =>
    if statusCode ≠ 200 then
      (evs, .ret (none,
        some ("HTTP from " ++ contentHashURL ++ " status: " ++ w.statusText statusCode)))
    else
      let pub := w.scalarBaseMult wif.priKey
      let encPriKey : ecdhPrivateKey := ⟨wif.priKey, pub.1, pub.2⟩
      match w.generateKey with
      | .error e => (evs, .ret (none, some ("generate signing private key err: " ++ e)))
      | .ok sigPriKey =>
        let data : encData := ⟨ts, "Undisclosed", "", "Undisclosed"⟩
        match newEntity data sigPriKey encPriKey with
        | .error e => (evs, .ret (none, some ("creating a new entity err: " ++ e)))
        | .ok decEntity =>
          match w.readMessage body decEntity with
          | .error e => (evs, .ret (none, some ("decrypt message err: " ++ e)))
          | .ok unverifiedBody =>
            match w.mailReadMessage unverifiedBody with
            | .error _ => (evs, .panic)
            | .ok (header, msgBody) =>
              let r := w.readAll msgBody
              (evs, .ret (some ⟨header, r.1⟩, r.2.map fun e => "reading message: " ++ e))

/-! ## `checkMetaLink` (`common.term.go`) -/

/-- The text written to the Stage-1 MAC:
`fmt.Fprintf(mmac, "com.pubkemail.meta.v1:%s/%s:%s", wif.addr, conHash, timestamp)`. -/
def metaText (addr conHash timestamp : String) : String :=
  "com.pubkemail.meta.v1:" ++ addr ++ "/" ++ conHash ++ ":" ++ timestamp

/-- The text written to the Stage-2 MAC:
`fmt.Fprintf(macc, "com.pubkemail.content.v1:%s/%s:%s", wif.addr, conHash, timestamp)`. -/
def contentText (addr conHash timestamp : String) : String :=
  "com.pubkemail.content.v1:" ++ addr ++ "/" ++ conHash ++ ":" ++ timestamp

/-- Lowercase hex HMAC-SHA256 of a text under a key:
`hex.EncodeToString(mac.Sum(nil))` after the text is written to
`hmac.New(sha256.New, key)`. -/
def hmacHex (key : List Nat) (text : String) : String :=
  hexEncodeToString (hmacSHA256 key (stringBytes text))

/-- checkMetaLink takes the data from a meta link and checks to see if it is
hashed by the shared key of any private keys that were submitted. The result is
the pair `(hash, ok)` of the Go function. -/
def checkMetaLink (wif : WIF) (id conHash timestamp : String) : String × Bool :=
  if id = hmacHex wif.sharedKey (metaText wif.addr conHash timestamp) then
    (hmacHex wif.sharedKey (contentText wif.addr conHash timestamp), true)
  else
    ("", false)

/-! ## `termAddrChecker` (`common.term.go`) -/

/-- The call `c.addrsDataMap[addr].feedLinksDone.Done()`: a nil wait group
(also the one of the zero `addrData` of a missing address) is dereferenced, and
a counter that would drop below zero makes `Done` panic. -/
def feedLinksDoneDone (c : common) (addr : String) : Outcome :=
  match c.addrsDataMap.lookup addr with
  | none => ⟨c, [], .panic⟩
  | some d =>
    match d.feedLinksDone with
    | none => ⟨c, [], .panic⟩
    | some n =>
      if n - 1 < 0 then ⟨c, [], .panic⟩
      else
        ⟨{ c with addrsDataMap :=
            c.addrsDataMap.insert addr { d with feedLinksDone := some (n - 1) } },
         [.wgDone addr], .fall⟩

/-- The block of `termAddrChecker` that runs when `checkMetaLink` answered
`ok`: from `c.Data.Addr.incrNewMailCnt(addr)` to the call of the forwarding
function. -/
def termAddrCheckerMatched (w : World) (c : common) (addr : String) (wif : WIF)
    (contentEmailHash tsParam : String) : Outcome :=
  let c := c.incrNewMailCnt addr
  match ParseInt tsParam with
  | none => ⟨c, [.log "parsing timestamp err"], .cont⟩
  | some ts =>
    if ¬ (ts > c.afterDate) then ⟨c, [], .cont⟩
    else
      let r := getContentMsg w wif contentEmailHash ts
      match r.2 with
      | .panic => ⟨c, r.1, .panic⟩
      | .ret (_, some e) => ⟨c, r.1 ++ [.log ("retriving email message: " ++ e)], .cont⟩
      | .ret (message, none) =>
        match c.Display.lookup addr with
        | none => ⟨c, r.1 ++ [.log "display for address not found"], .cont⟩
        | some addrDisplay =>
          let fwdTo := addrDisplay.FwdTo
          match c.fwdDataMap.lookup fwdTo with
          | none => ⟨c, r.1, .fall⟩
          | some fn =>
            match message with
            | none => ⟨c, r.1, .panic⟩
            | some message =>
              let sender := message.Header.Get "From"
              let subj := message.Header.Get "Subject"
              match fn.fwdEmail with
              | .nil => ⟨c, r.1, .panic⟩
              | f =>
                ⟨c, r.1 ++ [.fwdEmail f sender subj message.Body message.Header false],
                 .fall⟩

/-- The case `link := <-c.addrsDataMap[addr].feedLinks` of the `select` in
`termAddrChecker`, for the received value `link`. -/
def termAddrCheckerLink (w : World) (c : common) (addr link : String) : Outcome :=
  match w.urlParse link with
  | none => ⟨c, [.log ("address check parse link url: " ++ link)], .cont⟩
  | some u =>
    let wif := c.wif addr
    let r := checkMetaLink wif (u "check") (u "hash") (u "ts")
    (if r.2 then termAddrCheckerMatched w c addr wif r.1 (u "ts")
     else ⟨c, [], .fall⟩).andThen
      fun c => ⟨c, [.viewTop], .fall⟩

/-- The case `<-c.term.done` of the `select` in `termAddrChecker`:
`feedLinksDone.Done()` and then `break`. -/
def termAddrCheckerDone (c : common) (addr : String) : Outcome :=
  (feedLinksDoneDone c addr).andThen fun c => ⟨c, [], .brk⟩

/-- The communication on which the `select` of `termAddrChecker` proceeds. -/
inductive Ready where
  /-- A link was received from `c.addrsDataMap[addr].feedLinks`. -/
  | link (l : String)
  /-- A receive from `c.term.done` succeeded. -/
  | done
deriving DecidableEq, Repr

/-- One iteration of the `for` loop of `termAddrChecker`: the `select`
statement and then `time.Sleep(c.term.check.intervalWaitDuration)`. -/
def termAddrCheckerIter (w : World) (c : common) (addr : String) (r : Ready) : Outcome :=
  (match r with
   | .link l => termAddrCheckerLink w c addr l
   | .done => termAddrCheckerDone c addr).endSelect.andThen
    fun c => ⟨c, [.sleep c.intervalWaitDuration], .fall⟩

/-- A goroutine between two iterations of its loop. -/
structure Task where
  c : common
  trace : List Event
  status : Status
deriving DecidableEq, Repr

/-- termAddrChecker is a function that holds the channel that links are sent
back on to be checked against. If it is valid it will initiate a download and
forward the message using the supplied forwarding data. The loop runs one
iteration for each entry of the schedule (the answers of the world and the
communication the `select` proceeds on) while the goroutine is running. -/
def termAddrChecker (addr : String) : List (World × Ready) → Task → Task
  | [], t => t
  | (w, r) :: rest, t =>
    match t.status with
    | .running =>
      let o := termAddrCheckerIter w t.c addr r
      termAddrChecker addr rest ⟨o.c, t.trace ++ o.events, o.ctl.forStatus⟩
    | _ => t

/-! ## `termReadFeed` (`common.term.go`) -/

/-- The address of a feed page:
`fmt.Sprintf("https://rss.pubkemail.com/feed?page=%d&limit=%d", page, limit)`. -/
def feedURL (page limit : Int) : String :=
  "https://rss.pubkemail.com/feed?page=" ++ toString page ++ "&limit=" ++ toString limit

/-- The loop `for _, f := range c.addrsDataMap { f.feedLinks <- link }`. A send
is taken to complete: waiting for room in a full channel is left to the
scheduler. -/
def sendFeedLink (c : common) (link : String) : common :=
  { c with addrsDataMap :=
      c.addrsDataMap.map fun kd => (kd.1, { kd.2 with feedLinks := kd.2.feedLinks ++ [link] }) }

/-- The local variable `page` of `termReadFeed` together with the result of a
block of its statements. -/
structure FeedOutcome where
  page : Int
  c : common
  events : List Event
  ctl : Ctl
deriving DecidableEq, Repr

/-- The loop `for _, item := range feed.Items { ... }` of `termReadFeed`; its
`break` at the genesis item ends this loop only. -/
def termReadFeedItems : List Item → Int → common → FeedOutcome
  | [], page, c => ⟨page, c, [], .fall⟩
  | item :: rest, page, c =>
    if item.GUID = "GENESIS-ITEM" then
      ⟨1, c, [.sleep c.intervalResetDuration], .fall⟩
    else
      termReadFeedItems rest (page + 1) (sendFeedLink c item.Link)

/-- One iteration of the `for` loop of `termReadFeed`, from the value of `page`
and the shared data at its start. -/
def termReadFeedIter (w : World) (page : Int) (c : common) : FeedOutcome :=
  let limit : Int := 250
  if c.addrsDataMap.length = 0 then
    ⟨page, c, [.log "checking...", .sleep c.intervalNextDuration], .cont⟩
  else
    let url := feedURL page limit
    match w.parseURL url with
    | .error e =>
      ⟨1, c, [.log "checking...", .httpGet url, .log ("gathering the feed URL" ++ e),
        .sleep c.intervalResetDuration], .cont⟩
    | .ok items =>
      if items.length = 0 then
        ⟨1, c, [.log "checking...", .httpGet url, .sleep c.intervalNextDuration], .brk⟩
      else
        let r := termReadFeedItems items page c
        ⟨r.page, r.c,
         [.log "checking...", .httpGet url] ++ r.events ++ [.sleep c.intervalWaitDuration],
         r.ctl⟩

/-- The feed reader between two iterations of its loop. -/
structure FeedTask where
  page : Int
  c : common
  trace : List Event
  status : Status
deriving DecidableEq, Repr

/-- The feed reader at the start of `termReadFeed`: `page, limit := 1, 250`. -/
def termReadFeedStart (c : common) : FeedTask := ⟨1, c, [], .running⟩

/-- termReadFeed checks the RSS feed on an interval and sends back the meta
links it finds to be checked against the shared keys of the supplied addresses.
The loop runs one iteration for each world of the schedule while the goroutine
is running. -/
def termReadFeed : List World → FeedTask → FeedTask
  | [], t => t
  | w :: rest, t =>
    match t.status with
    | .running =>
      let o := termReadFeedIter w t.page t.c
      termReadFeed rest ⟨o.page, o.c, t.trace ++ o.events, o.ctl.forStatus⟩
    | _ => t

/-! ## Key derivation (`helper.go`) -/

/-- The prime `P` of the field of `bitelliptic.S256()` (secp256k1). -/
def S256P : Nat := 2 ^ 256 - 2 ^ 32 - 977

/-- The constant `B` of the curve equation of `bitelliptic.S256()`. -/
def S256B : Nat := 7

/-- `bitelliptic.S256().IsOnCurve(x, y)` for non-nil arguments:
`y² = x³ + B` modulo `P`. -/
def S256IsOnCurve (x y : Nat) : Bool :=
  (x * x * x + S256B) % S256P == (y * y) % S256P

/-- The big-endian value of a byte string (`new(big.Int).SetBytes`). -/
def bytesToNat (bs : List Nat) : Nat :=
  bs.foldl (fun acc b => acc * 256 + b % 256) 0

/-- The 32 big-endian bytes of a number below `2 ^ 256`. -/
def natToBytes32 (n : Nat) : List Nat :=
  (List.range 32).map fun i => n / 256 ^ (31 - i) % 256

/-- `elliptic.Unmarshal(bitelliptic.S256(), data)`: the point of an uncompressed
encoding; `none` stands for the result `nil, nil` on an encoding of the wrong
length, without the leading byte 4, with a coordinate not below `P`, or of a
point that is not on the curve. -/
def ellipticUnmarshal (data : List Nat) : Option (Nat × Nat) :=
  if data.length ≠ 1 + 2 * 32 then none
  else if (data.headD 0) % 256 ≠ 4 then none
  else
    let x := bytesToNat ((data.drop 1).take 32)
    let y := bytesToNat (data.drop 33)
    if x ≥ S256P || y ≥ S256P then none
    else if !S256IsOnCurve x y then none
    else some (x, y)

/-- `elliptic.Marshal(bitelliptic.S256(), x, y)`: the uncompressed encoding. -/
def ellipticMarshal (x y : Nat) : List Nat :=
  4 :: (natToBytes32 x ++ natToBytes32 y)

/-- A `btcutil.WIF` as far as it is read: the bytes of `PrivKey.D` and the
result of `SerializePubKey()`. -/
structure btcutilWIF where
  D : List Nat
  CompressPubKey : Bool
  netID : Nat
  SerializePubKey : List Nat
deriving DecidableEq, Repr

/-- A `btcutil.AddressPubKey` as far as it is read. -/
structure AddressPubKey where
  EncodeAddress : String
  ScriptAddress : List Nat
deriving DecidableEq, Repr

/-- The library functions behind the key derivation. -/
structure KeyLib where
  /-- `base58.BitcoinEncoding.DecodeString(s)`. -/
  base58DecodeString : String → Except String (List Nat)
  /-- `btcutil.DecodeWIF(s)`. -/
  DecodeWIF : String → Except String btcutilWIF
  /-- `btcutil.NewAddressPubKey(serializedPubKey, &chaincfg.TestNet3Params)`. -/
  NewAddressPubKey : List Nat → Except String AddressPubKey
  /-- `pem.Decode(body)`: the bytes of the block (`none` is the nil block) and
  the rest of the input. -/
  pemDecode : String → Option (List Nat) × String
  /-- `asn1.Unmarshal(block.Bytes, &ecPubKey)`: an error, or the bytes of the
  bit string `PublicKey` and the bytes left over. -/
  asn1Unmarshal : List Nat → Except String (List Nat × List Nat)
  /-- `eckey.NewCompressedPublicKey(compBytes)`. -/
  NewCompressedPublicKey : List Nat → Except String (List Nat)
  /-- `Uncompress()` of a compressed public key, with `Coords()` of the result. -/
  Uncompress : List Nat → Except String (Nat × Nat)
  /-- `bitelliptic.S256().ScalarMult(x, y, k)`. -/
  ScalarMult : Nat → Nat → List Nat → Nat × Nat

/-- remotePublicKey returns the pubkemail public key that coorosponds to the
public key of an address that has been submited. This is what the shared key
is based on. -/
def remotePublicKey (w : World) (lib : KeyLib) (x : List Nat) :
    List Event × GoResult (Except String (List Nat)) :=
  let url := "http://shared.pubkemail.com/public/key/" ++ hexEncodeToString x
  let evs := [Event.httpGet url]
  match w.httpGet url with
  | .error e => (evs, .ret (.error ("http get public key: " ++ e)))
  | .ok (statusCode, respBody) =>
    if statusCode ≠ 200 then
      (evs, .ret (.error ("http get status: " ++ w.statusText statusCode)))
    else
      let r := w.readAll respBody
      match r.2 with
      | some e => (evs, .ret (.error ("http get read body: " ++ e)))
      | none =>
        let body := r.1
        if body.utf8ByteSize = 0 then
          (evs, .ret (.error "http get public key empty pem block"))
        else
          let d := lib.pemDecode body
          if d.2.utf8ByteSize > 0 then
            (evs, .ret (.error "http get public key pem block: extra data"))
          else
            match d.1 with
            | none => (evs, .panic)
            | some blockBytes =>
              match lib.asn1Unmarshal blockBytes with
              | .error e => (evs, .ret (.error ("http get public key unmarshal: " ++ e)))
              | .ok (publicKeyBytes, rum) =>
                if rum.length ≠ 0 then
                  (evs, .ret (.error "http get public key unmarshal asn1: extra data"))
                else
                  (evs, .ret (.ok publicKeyBytes))

/-- eccpUnmarshal returns the compressed key public key pair. -/
def eccpUnmarshal (lib : KeyLib) (compBytes : List Nat) : Except String (Nat × Nat) :=
  match lib.NewCompressedPublicKey compBytes with
  | .error e => .error e
  | .ok c =>
    match lib.Uncompress c with
    | .error e => .error e
    | .ok xy => .ok xy

/-- sharedKey takes the bytes of a public key and private key and returns the
shared key based on both of them. The expression `pubKey[0]` panics on an empty
slice, and `IsOnCurve` panics on the nil coordinates that `elliptic.Unmarshal`
answers for a malformed uncompressed key. -/
def sharedKey (lib : KeyLib) (pubKey priKey : List Nat) :
    List Event × GoResult (Except String (List Nat)) :=
  match pubKey with
  | [] => ([], .panic)
  | b0 :: _ =>
    if b0 % 256 = 2 ∨ b0 % 256 = 3 then
      match eccpUnmarshal lib pubKey with
      | .error e =>
        ([.log ("invalid unmarshal: " ++ e)], .ret (.error "the public key is invalid"))
      | .ok (puX, puY) =>
        if !S256IsOnCurve puX puY then
          ([.log "the public key is invalid. Not on curve"],
           .ret (.error "the public key is invalid"))
        else
          let sh := lib.ScalarMult puX puY priKey
          ([], .ret (.ok (ellipticMarshal sh.1 sh.2)))
    else if b0 % 256 = 4 then
      match ellipticUnmarshal pubKey with
      | none => ([], .panic)
      | some (puX, puY) =>
        if !S256IsOnCurve puX puY then
          ([.log "the public key is invalid. Not on curve"],
           .ret (.error "the public key is invalid"))
        else
          let sh := lib.ScalarMult puX puY priKey
          ([], .ret (.ok (ellipticMarshal sh.1 sh.2)))
    else
      ([.log "invalid public key type"], .ret (.error "the public key is invalid"))

/-- The `switch b[0]` of `unmarshalWIF`: the currency of a version byte, and the
value before the switch when no case applies. -/
def currencyOfVersion (b0 : Nat) (before : String) : String :=
  if b0 % 256 = 0x80 then "BTC"
  else if b0 % 256 = 0xB0 then "LTC"
  else if b0 % 256 = 0x9E then "XDG"
  else if b0 % 256 = 0xEF ∨ b0 % 256 = 0xF1 then "-T-"
  else before

/-- unmarshalWIF takes a string and checks to see if it is a valid WIF, if so
it will grab the shared key and return a struct that contains all of the WIF
details. The result is the pair `(w, err)` of the Go function, or a panic. -/
def unmarshalWIF (w : World) (lib : KeyLib) (wifStr : String) :
    List Event × GoResult (WIF × Option String) :=
  match lib.base58DecodeString wifStr with
  | .error e => ([], .ret ({}, some e))
  | .ok b =>
    if b.length < 4 then ([], .ret ({}, some "wif is invalid"))
    else
      match lib.DecodeWIF wifStr with
      | .error e => ([], .ret ({}, some e))
      | .ok wif =>
        match lib.NewAddressPubKey wif.SerializePubKey with
        | .error e => ([], .ret ({}, some e))
        | .ok addr =>
          let w0 : WIF :=
            { wif := wifStr, addr := addr.EncodeAddress, priKey := wif.D,
              pubKey := addr.ScriptAddress }
          if w0.pubKey.length = 0 then ([], .panic)
          else
            let rem := remotePublicKey w lib (w0.pubKey.drop (w0.pubKey.length - 1))
            match rem.2 with
            | .panic => (rem.1, .panic)
            | .ret (.error e) => (rem.1, .ret (w0, some ("remote pubk: " ++ e)))
            | .ret (.ok remPubKey) =>
              let sh := sharedKey lib remPubKey w0.priKey
              match sh.2 with
              | .panic => (rem.1 ++ sh.1, .panic)
              | .ret (.error e) => (rem.1 ++ sh.1, .ret (w0, some e))
              | .ret (.ok shrKey) =>
                let w1 : WIF := { w0 with sharedKey := shrKey }
                (rem.1 ++ sh.1,
                 .ret ({ w1 with currency := currencyOfVersion (b.headD 0) w1.currency }, none))

/-! ## The add-WIF case of `webIndexHandler` (`common.web.go`) -/

/-- The variable `err` of `webIndexHandler` when the handler returns, as the
deferred function reads it: nil, a `webFriendlyErr` or a `webFriendlyInfo`. -/
inductive handlerErr where
  | nil
  | friendlyErr (text : String)
  | friendlyInfo (text : String)
deriving DecidableEq, Repr

/-- The deferred function of `webIndexHandler`: it clears the two texts, shows
the friendly text of `err`, and redirects. -/
def webIndexHandlerDeferred (c : common) (err : handlerErr) : common × List Event :=
  let c0 := { c with MainContentErrText := "", MainContentInfoText := "" }
  match err with
  | .nil => (c0, [.redirect])
  | .friendlyErr text =>
    ({ c0 with MainContentErrText := text }, [.log "webFriendlyErr", .redirect])
  | .friendlyInfo text => ({ c0 with MainContentInfoText := text }, [.redirect])

/-- The key that `for fwdTo = range c.fwdDataMap { break }` leaves in `fwdTo`:
the first key of the iteration, or the empty string for an empty map. The
order of the list stands for the iteration order that Go picks. -/
def firstFwdTo (c : common) : String :=
  match c.fwdDataMap with
  | [] => ""
  | (k, _) :: _ => k

/-- The case `c.Data.Const.SubmitAddWIF` of the `switch` in `webIndexHandler`,
for the submitted value `wifStr` of `wif-str`, followed by the deferred
function of the handler. A panic of `unmarshalWIF` leaves the handler before
anything is stored. The test `len(FwdTo) > 0` is the test that `FwdTo` is not
the empty string. -/
def webIndexHandlerAddWIF (w : World) (lib : KeyLib) (c : common) (wifStr : String) :
    Outcome :=
  let r := unmarshalWIF w lib wifStr
  match r.2 with
  | .panic =>
    let d := webIndexHandlerDeferred c .nil
    ⟨d.1, r.1 ++ d.2, .panic⟩
  | .ret (_, some _) =>
    let d := webIndexHandlerDeferred c (.friendlyErr "Something went wrong. Please Retry.")
    ⟨d.1, r.1 ++ d.2, .fall⟩
  | .ret (wif, none) =>
    let fwdTo := firstFwdTo c
    let c1 : common :=
      { c with addrMail := { c.addrMail with NewMail := c.addrMail.NewMail.insert wif.addr 0 } }
    let c2 : common :=
      { c1 with Display :=
          c1.Display.insert wif.addr { Addr := wif.addr, WIF := wif.wif, FwdTo := fwdTo } }
    let isFwd : Bool := ((c2.Display.lookup wif.addr).getD {}).FwdTo != ""
    let c3 : common :=
      { c2 with addrsDataMap :=
          c2.addrsDataMap.insert wif.addr { isFwd := isFwd, feedLinks := [], wif := wif } }
    let started : List Event := if isFwd then [.goTermAddrChecker wif.addr] else []
    let d := webIndexHandlerDeferred c3 .nil
    ⟨d.1, r.1 ++ started ++ [.viewBottom] ++ d.2, .fall⟩

/-! ## `fwdSMTPEmail` (`fwd.go`) -/

/-- Whether a character is a byte of a header field name
(`validHeaderFieldByte` of `net/textproto`): an ASCII letter or digit or one of
the fifteen other `tchar` bytes of RFC 7230. -/
def validHeaderFieldByte (ch : Char) : Bool :=
  ch.isAlphanum ||
    [33, 35, 36, 37, 38, 39, 42, 43, 45, 46, 94, 95, 96, 124, 126].contains ch.toNat

/-- The loop of `canonicalMIMEHeaderKey`: upper case at the start and after a
dash, lower case elsewhere. -/
def canonicalMIMELoop : Bool → List Char → List Char
  | _, [] => []
  | upper, ch :: rest =>
    let c2 :=
      if upper && ch.isLower then ch.toUpper
      else if !upper && ch.isUpper then ch.toLower
      else ch
    c2 :: canonicalMIMELoop (c2 == '-') rest

/-- `textproto.CanonicalMIMEHeaderKey(s)`: a key with a byte that is not valid
in a field name is returned as it is. -/
def CanonicalMIMEHeaderKey (s : String) : String :=
  if s.data.all validHeaderFieldByte then String.mk (canonicalMIMELoop true s.data) else s

/-- `mail.Header.Get(key)` for any key: the first value stored under the
canonical form of the key, or the empty string. -/
def Header.GetKey (h : Header) (key : String) : String :=
  h.Get (CanonicalMIMEHeaderKey key)

/-- The comparison `l == name` for `l := strings.ToLower(k)` and one of the
names `to`, `from`, `subject`, `content-type`. No character outside ASCII is
mapped to one of the letters of these names, so the ASCII lower case decides
it. The comparison is also used for the media type that `mime.ParseMediaType`
returns, which is ASCII. -/
def lowerEq (k name : String) : Bool :=
  String.mk (k.data.map Char.toLower) == name

/-- fwdViaSMTP is version 1. -/
structure fwdViaSMTPV1 where
  To : List String := []
  User : Option String := none
  Pass : Option String := none
  Address : String := ""
  From : String := ""
  Subject : String := ""
  Body : String := ""
deriving DecidableEq, Repr

/-- fwdViaSMTP is the JSON used for forwarding email via SMTP; the embedded
pointer is nil when the JSON has no `v1`. -/
structure fwdViaSMTP where
  V1 : Option fwdViaSMTPV1 := none
deriving DecidableEq, Repr

/-- fwdViaHTTPAPIV1 is version 1. -/
structure fwdViaHTTPAPIV1 where
  ToVals : List String := []
  UserVal : Option String := none
  PassVal : Option String := none
  URLVal : String := ""
  MethodVal : String := ""
  HeadersVals : GoMap String := []
  ParametersVals : GoMap (List String) := []
  From : String := ""
  Subject : String := ""
  Text : String := ""
  HTML : String := ""
deriving DecidableEq, Repr

/-- fwdViaHTTPAPI is the JSON used for forwarding email via an HTTP-API; the
embedded pointer is nil when the JSON has no `v1`. -/
structure fwdViaHTTPAPI where
  V1 : Option fwdViaHTTPAPIV1 := none
deriving DecidableEq, Repr

/-- fwdVia holds all of the JSON types that can be decoded as pointers, only
the ones filled in will be valid. -/
structure fwdVia where
  SMTP : Option fwdViaSMTP := none
  HTTPAPI : Option fwdViaHTTPAPI := none
deriving DecidableEq, Repr

/-- The first loop of `fwdSMTPEmail`: the keys of the headers, in the order of
the iteration, without `to`, `from` and `subject` in any case. -/
def smtpHeaderKeys (headers : Header) : List String :=
  headers.foldl (fun keys kv =>
    if lowerEq kv.1 "to" || lowerEq kv.1 "from" || lowerEq kv.1 "subject" then keys
    else keys ++ [kv.1]) []

/-- The second loop of `fwdSMTPEmail`:
`msg += fmt.Sprintf("%s: %s\r\n", k, headers.Get(k))` for every key. -/
def smtpHeaderLines (headers : Header) (keys : List String) : String :=
  keys.foldl (fun msg k => msg ++ (k ++ ": " ++ headers.GetKey k ++ "\r\n")) ""

/-- The first element of `strings.Split(s, ":")`: the part before the first
colon. -/
def beforeColon (s : String) : String :=
  String.mk (s.data.takeWhile fun ch => ch != ':')

/-- fwdSMTPEmail is the function that sends email via SMTP if a SMTP version
has been defined. The result is the returned error, or a panic when the SMTP
part of `via` or its `v1` is a nil pointer. -/
def fwdSMTPEmail (w : World) (via : fwdVia) (sender subject body : String)
    (headers : Header) (isTest : Bool) : List Event × GoResult (Option String) :=
  match via.SMTP.bind (·.V1) with
  | none => ([], .panic)
  | some v1 =>
    let sender := if isTest && v1.From != "" then v1.From else sender
    let _subject := if isTest && v1.Subject != "" then v1.Subject else subject
    let body := if isTest && v1.Body != "" then v1.Body else body
    let auth : Option (String × String × String) :=
      match v1.User, v1.Pass with
      | some user, some pass => some (user, pass, beforeColon v1.Address)
      | _, _ => none
    let keys := smtpHeaderKeys headers ++ ["To", "From", "Subject"]
    let msg := smtpHeaderLines headers keys
    let msg := msg ++ ("\r\n" ++ body)
    ([.sendMail v1.Address auth sender v1.To msg], .ret (w.sendMail v1.Address sender v1.To msg))

/-! ## `txtTruncate` and `addrDataMapToString` (`helper.go`) -/

/-- txtTruncate takes a string of any length and truncates it if necessary and
uses ellipis to indicate more. `len(text)` and the slice `text[:len(text)-3]`
count bytes, so the text and the result are byte strings here (`stringBytes`
of a string). -/
def txtTruncate (text : List Nat) (length : Int) : List Nat :=
  if text.length > 3 ∧ (text.length : Int) > length then
    text.take (text.length - 3) ++ stringBytes "..."
  else
    text

/-- addrDataMapToString takes a map of addresses and related data and returns
a sorted string of each address on a row with the related data in a standard
format; the result is a byte string. -/
def addrDataMapToString (m : GoMap addrData) : List Nat :=
  let keys := (m.map (·.1)).insertionSort (fun a b => a ≤ b)
  let lines := keys.map fun k =>
    stringBytes (" " ++ ((m.lookup k).getD {}).wif.currency ++ " ") ++
      txtTruncate (stringBytes k) 32
  (lines.intersperse (stringBytes "\n")).flatten

/-! ## The forwarding cases of `webIndexHandler` (`common.web.go`) -/

/-- `unicode.IsSpace`: the white space that `strings.TrimSpace` removes. -/
def isSpace (ch : Char) : Bool :=
  let n := ch.toNat
  (9 ≤ n && n ≤ 13) || n == 32 || n == 0x85 || n == 0xA0 || n == 0x1680 ||
    (0x2000 ≤ n && n ≤ 0x200A) || n == 0x2028 || n == 0x2029 || n == 0x202F ||
    n == 0x205F || n == 0x3000

/-- The test `len(strings.TrimSpace(s)) == 0`: the string is white space only. -/
def trimSpaceIsEmpty (s : String) : Bool :=
  s.data.all isSpace

/-- `strings.Replace(s, " ", "-", -1)`: every space becomes a dash. -/
def spacesToDashes (s : String) : String :=
  String.mk (s.data.map fun ch => if ch == ' ' then '-' else ch)

/-- The statement `delete(m, k)`. -/
def GoMap.delete {V : Type} (m : GoMap V) (k : String) : GoMap V :=
  m.filter fun kv => kv.1 != k

/-- The fields `From`, `Subject`, `Text`, `HTML` that the templates of an
HTTP-API forwarding are executed with. -/
structure TemplateData where
  From : String
  Subject : String
  Text : String
  HTML : String
deriving DecidableEq, Repr

/-- A `url.URL` as far as it is used. -/
structure URL where
  Scheme : String := ""
  Host : String := ""
  Path : String := ""
  RawQuery : String := ""
deriving DecidableEq, Repr

/-- A part that `multipart.Reader.NextPart` delivers: its `Content-Type`
header, the bytes that `buf.ReadFrom(p)` reads from it, and the error of that
read, if any. -/
structure Part where
  contentType : String
  content : String
  readErr : Option String := none
deriving DecidableEq, Repr

/-- The library calls behind the forwarding code, with the clock and the
random boundary of a multipart form. -/
structure WebLib where
  /-- `json.Unmarshal([]byte(text), &via)`. -/
  jsonUnmarshal : String → Except String fwdVia
  /-- `mime.ParseMediaType(v)`: the media type and the parameters; the empty
  type when the value does not parse (the error is dropped by the callers). -/
  parseMediaType : String → String × GoMap String
  /-- The results of `NextPart` of a `multipart.NewReader(body, boundary)`,
  up to `io.EOF`. -/
  multipartParts : String → String → List (Except String Part)
  /-- `url.Parse(rawurl)`. -/
  urlParse : String → Except String URL
  /-- `template.New(name).Parse(text)`: the error, if any. -/
  templateParse : String → String → Option String
  /-- `tmpl.Execute(buf, Data)` for the template parsed from a text: an error,
  or what was written to the buffer. -/
  templateExecute : String → TemplateData → Except String String
  /-- `url.ParseQuery` of a raw query that is not empty. -/
  parseQuery : String → GoMap (List String)
  /-- `url.Values.Encode` of values that are not empty. -/
  valuesEncode : GoMap (List String) → String
  /-- The boundary that `multipart.NewWriter` draws. -/
  boundary : String
  /-- `w.FormDataContentType()` for a boundary. -/
  formDataContentType : String → String
  /-- The body that a multipart writer with a boundary produces for the fields
  written with `WriteField`, after `Close`. -/
  multipartForm : String → List (String × String) → String
  /-- `time.Now().Unix()`. -/
  nowUnix : Int
  /-- `time.Now().Format(time.RFC822)`. -/
  nowRFC822 : String

/-- The loop of the forwarding deletion in `webIndexHandler`, over the entries
of `c.Data.Addr.Display`: an address that forwards to `name` loses its
`FwdTo` and its `isFwd`, and `delete(c.fwdDataMap, name)` is executed for it. -/
def deleteFwdLoop (name : String) : List (String × AddrDisplay) → common → common
  | [], c => c
  | (addr, display) :: rest, c =>
    if display.FwdTo = name then
      let display := { display with FwdTo := "" }
      let c1 : common :=
        match c.addrsDataMap.lookup addr with
        | some data =>
          { c with addrsDataMap := c.addrsDataMap.insert addr { data with isFwd := false } }
        | none => c
      let c2 : common := { c1 with Display := c1.Display.insert addr display }
      let c3 : common := { c2 with fwdDataMap := c2.fwdDataMap.delete name }
      deleteFwdLoop name rest c3
    else
      deleteFwdLoop name rest c

/-- The end of a case of `webIndexHandler`: the deferred function runs with the
value of `err`. -/
def webIndexHandlerReturn (c : common) (events : List Event) (err : handlerErr)
    (ctl : Ctl) : Outcome :=
  let d := webIndexHandlerDeferred c err
  ⟨d.1, events ++ d.2, ctl⟩

/-- The case `c.Data.Const.SubmitFwd, c.Data.Const.SubmitFwdTest` of the
`switch` in `webIndexHandler`, for the submitted values of `fwd-name` and
`fwd-json`, followed by the deferred function of the handler. The `default`
case of the inner `switch` sets `err` and goes on; a call of the nil `fwdEmail`
panics. -/
def webIndexHandlerFwd (lib : WebLib) (c : common) (fwdNameText fwdJSONText : String)
    (isTest : Bool) : Outcome :=
  if !isTest && trimSpaceIsEmpty fwdNameText then
    webIndexHandlerReturn { c with FwdJSONText := fwdJSONText } []
      (.friendlyErr
        "The JSON submitted does not have a name. Please add a name and try again.")
      .fall
  else if !isTest && trimSpaceIsEmpty fwdJSONText then
    webIndexHandlerReturn (deleteFwdLoop (spacesToDashes fwdNameText) c.Display c) []
      (.friendlyInfo ("You have deleted the Forwarding: " ++ fwdNameText ++ "."))
      .fall
  else
    match lib.jsonUnmarshal fwdJSONText with
    | .error _ =>
      webIndexHandlerReturn c []
        (.friendlyErr "The JSON submitted is invalid. Please check and retry.") .fall
    | .ok via =>
      let chosen : fwdEmailFunc × handlerErr :=
        if via.HTTPAPI.isSome then
          (.viaHTTPAPI fwdJSONText,
           .friendlyInfo ("You have added the HTTP API forwarding JSON: " ++ fwdNameText))
        else if via.SMTP.isSome then
          (.viaSMTP fwdJSONText,
           .friendlyInfo ("You have added the SMTP forwarding JSON: " ++ fwdNameText))
        else
          (.nil, .friendlyErr "The JSON submitted is invalid. Please check and retry.")
      let fwdEmail := chosen.1
      let err := chosen.2
      if isTest then
        let c1 : common := { c with FwdNameText := fwdNameText, FwdJSONText := fwdJSONText }
        let testSubject := "Testing 123 - " ++ toString lib.nowUnix
        let testBody := "This is a test email sent @: " ++ lib.nowRFC822
        match fwdEmail with
        | .nil => webIndexHandlerReturn c1 [] err .panic
        | f =>
          webIndexHandlerReturn c1
            [.fwdEmail f "test@example.com" testSubject testBody [] true] err .fall
      else
        let c1 : common := { c with FwdNameText := "", FwdJSONText := "" }
        let name := spacesToDashes fwdNameText
        let c2 : common :=
          { c1 with fwdDataMap := c1.fwdDataMap.insert name { fwdEmail := fwdEmail } }
        let c3 : common :=
          { c2 with FwdDisplays :=
              c2.FwdDisplays.insert name { Name := fwdNameText, JSON := fwdJSONText } }
        webIndexHandlerReturn c3 [] err .fall

/-! ## `fwdHTTPAPIEmailReq` (`fwd.go`) -/

/-- An `http.Request` as far as it is filled in; `BasicAuth` stands for the
`Authorization` header of `SetBasicAuth`, `Body` is `none` for a nil body. -/
structure Request where
  Method : String
  URL : URL
  Host : String
  Header : GoMap (List String) := []
  BasicAuth : Option (String × String) := none
  Body : Option String := none
deriving DecidableEq, Repr

/-- `http.Header.Add(key, value)`. -/
def httpHeaderAdd (h : GoMap (List String)) (key value : String) : GoMap (List String) :=
  let k := CanonicalMIMEHeaderKey key
  h.insert k ((h.lookup k).getD [] ++ [value])

/-- `http.Header.Set(key, value)`. -/
def httpHeaderSet (h : GoMap (List String)) (key value : String) : GoMap (List String) :=
  h.insert (CanonicalMIMEHeaderKey key) [value]

/-- `u.Query()`: the values parsed from `u.RawQuery`, a new map at every call;
the raw query that is empty has no values. -/
def URL.Query (lib : WebLib) (u : URL) : GoMap (List String) :=
  if u.RawQuery = "" then [] else lib.parseQuery u.RawQuery

/-- `url.Values.Add(key, value)`. -/
def valuesAdd (v : GoMap (List String)) (key value : String) : GoMap (List String) :=
  v.insert key ((v.lookup key).getD [] ++ [value])

/-- `url.Values.Encode()`: the empty string for no values. -/
def valuesEncode (lib : WebLib) (v : GoMap (List String)) : String :=
  if v.isEmpty then "" else lib.valuesEncode v

/-- The loop over the parts of a `multipart/alternative` body in
`fwdHTTPAPIEmailReq`, from the contents of `buf` and the values of `text` and
`html`: the events and the final `text` and `html`. A part that cannot be read
is logged and skipped without a reset of `buf`. -/
def alternativeParts (lib : WebLib) :
    List (Except String Part) → String → String → String → List Event × String × String
  | [], _, text, html => ([], text, html)
  | .error e :: rest, buf, text, html =>
    let r := alternativeParts lib rest buf text html
    (Event.log ("mime: read next part: " ++ e) :: r.1, r.2)
  | .ok p :: rest, buf, text, html =>
    let buf := buf ++ p.content
    match p.readErr with
    | some e =>
      let r := alternativeParts lib rest buf text html
      (Event.log ("mime: read from: " ++ e) :: r.1, r.2)
    | none =>
      let headerContentType := (lib.parseMediaType p.contentType).1
      let text := if headerContentType = "text/plain" then buf else text
      let html := if headerContentType = "text/html" then buf else html
      alternativeParts lib rest "" text html

/-- The loop over `via.fwdViaHTTPAPI.Headers()` in `fwdHTTPAPIEmailReq`, from
the values of `useMultipart` and `req.Header`: an error of a template, or the
final values. -/
def httpAPIHeaders (lib : WebLib) (data : TemplateData) :
    List (String × String) → Bool → GoMap (List String) →
      Except String (Bool × GoMap (List String))
  | [], useMultipart, header => .ok (useMultipart, header)
  | (k, v) :: rest, useMultipart, header =>
    let useMultipart :=
      if lowerEq k "content-type" then (lib.parseMediaType v).1 == "multipart/form-data"
      else useMultipart
    match lib.templateParse k v with
    | some e => .error ("header template parse: " ++ e)
    | none =>
      match lib.templateExecute v data with
      | .error e => .error ("header template exec: " ++ e)
      | .ok out => httpAPIHeaders lib data rest useMultipart (httpHeaderAdd header k out)

/-- The inner loop `for _, v := range vv` of the parameters in
`fwdHTTPAPIEmailReq`, from the fields written to the multipart writer and the
value of `q`. Without multipart, `q.Query().Add(k, ...)` adds to the map that
`Query()` has just built, and `q` stays as it is. -/
def httpAPIParamValues (lib : WebLib) (data : TemplateData) (useMultipart : Bool)
    (k : String) : List String → List (String × String) → URL →
      Except String (List (String × String) × URL)
  | [], fields, q => .ok (fields, q)
  | v :: rest, fields, q =>
    match lib.templateParse k v with
    | some e => .error ("param template parse: " ++ e)
    | none =>
      match lib.templateExecute v data with
      | .error e => .error ("param template exec: " ++ e)
      | .ok out =>
        if useMultipart then
          httpAPIParamValues lib data useMultipart k rest (fields ++ [(k, out)]) q
        else
          let _added := valuesAdd (q.Query lib) k out
          httpAPIParamValues lib data useMultipart k rest fields q

/-- The loop over `via.fwdViaHTTPAPI.Parameters()` in `fwdHTTPAPIEmailReq`. -/
def httpAPIParams (lib : WebLib) (data : TemplateData) (useMultipart : Bool) :
    List (String × List String) → List (String × String) → URL →
      Except String (List (String × String) × URL)
  | [], fields, q => .ok (fields, q)
  | (k, vv) :: rest, fields, q =>
    match httpAPIParamValues lib data useMultipart k vv fields q with
    | .error e => .error e
    | .ok (fields, q) => httpAPIParams lib data useMultipart rest fields q

/-- The part of `fwdHTTPAPIEmailReq` after the values of `from`, `subject`,
`text` and `html` are known. -/
def httpAPIRequest (lib : WebLib) (v1 : fwdViaHTTPAPIV1) (data : TemplateData) :
    Except String Request :=
  match lib.urlParse v1.URLVal with
  | .error e => .error e
  | .ok u =>
    let req : Request :=
      { Method := String.mk (v1.MethodVal.data.map Char.toUpper), URL := u, Host := u.Host,
        BasicAuth :=
          match v1.UserVal, v1.PassVal with
          | some user, some pass => some (user, pass)
          | _, _ => none }
    match httpAPIHeaders lib data v1.HeadersVals false req.Header with
    | .error e => .error e
    | .ok (useMultipart, header) =>
      let header :=
        if useMultipart then
          httpHeaderSet header "Content-Type" (lib.formDataContentType lib.boundary)
        else header
      let req := { req with Header := header }
      let q : URL := {}
      match httpAPIParams lib data useMultipart v1.ParametersVals [] q with
      | .error e => .error e
      | .ok (fields, q) =>
        if useMultipart then
          .ok { req with Body := some (lib.multipartForm lib.boundary fields) }
        else if v1.MethodVal = "GET" then
          .ok { req with URL := { req.URL with RawQuery := q.RawQuery } }
        else
          .ok { req with Body := some (valuesEncode lib (q.Query lib)) }

/-- fwdHTTPAPIEmailReq prepares a request to be sent by a HTTP API. It breaks
the forwarding email down to its various parts then allows for them to be
passed through a template before passing the message on to be sent via HTTP
API. The result is the pair `(*http.Request, error)`, or a panic when the
HTTP-API part of `via` or its `v1` is a nil pointer. -/
def fwdHTTPAPIEmailReq (lib : WebLib) (via : fwdVia) (sender subject body : String)
    (headers : Header) (isTest : Bool) : List Event × GoResult (Except String Request) :=
  if isTest then
    match via.HTTPAPI.bind (·.V1) with
    | none => ([], .panic)
    | some v1 =>
      let data : TemplateData :=
        { From := if v1.From != "" then v1.From else sender
          Subject := if v1.Subject != "" then v1.Subject else subject
          Text := if v1.Text != "" then v1.Text else body
          HTML := if v1.HTML != "" then v1.HTML else "" }
      ([], .ret (httpAPIRequest lib v1 data))
  else
    let media := lib.parseMediaType (headers.GetKey "Content-Type")
    let found : List Event × String × String :=
      if lowerEq media.1 "multipart/alternative" then
        match media.2.lookup "boundary" with
        | some boundary => alternativeParts lib (lib.multipartParts body boundary) "" body ""
        | none => ([], body, "")
      else ([], body, "")
    match via.HTTPAPI.bind (·.V1) with
    | none => (found.1, .panic)
    | some v1 =>
      let data : TemplateData :=
        { From := sender, Subject := subject, Text := found.2.1, HTML := found.2.2 }
      (found.1, .ret (httpAPIRequest lib v1 data))

/-! ## Concrete data used to evaluate the definitions -/

/-- A credential with address `addr` and the three-byte shared secret `01 02 03`. -/
def exampleWIF : WIF := { addr := "addr", sharedKey := [1, 2, 3] }

/-- The query of a link with the given `check`, `hash` and `ts` parameters. -/
def exampleQuery (check hash ts : String) : String → String := fun key =>
  if key = "check" then check else if key = "hash" then hash
  else if key = "ts" then ts else ""

/-- A link for `exampleWIF` with a correct tag and the timestamp 12 ns. -/
def staleLink : String :=
  "https://pubkemail.com/m?check=3873ca5405271313cef62824b0bff6b9de7ee53b27e08fd3dc3006f420fa3df9&hash=h&ts=12"

/-- A link for `exampleWIF` with a correct tag and the timestamp 2000 ns. -/
def freshLink : String :=
  "https://pubkemail.com/m?check=8d33936589e8dacbec01ff6b4cab94fdeed77d664baf5dab50b6fa677c087312&hash=h&ts=2000"

/-- A link whose tag belongs to nobody. -/
def foreignLink : String := "https://pubkemail.com/m?check=00&hash=h&ts=2000"

/-- A link that `url.Parse` rejects (the escape `%zz` is invalid). -/
def malformedLink : String := "https://pubkemail.com/%zz"

/-- The decrypted message of the examples. -/
def exampleMessage : Message :=
  { Header := [("From", ["alice@example.com"]), ("Subject", ["hello"])], Body := "body text" }

/-- A world in which the four example links parse as they read, the content
store answers 200, and decryption and parsing succeed. -/
def exampleWorld : World where
  urlParse := fun link =>
    if link = staleLink then
      some (exampleQuery "3873ca5405271313cef62824b0bff6b9de7ee53b27e08fd3dc3006f420fa3df9" "h" "12")
    else if link = freshLink then
      some (exampleQuery "8d33936589e8dacbec01ff6b4cab94fdeed77d664baf5dab50b6fa677c087312" "h" "2000")
    else if link = foreignLink then some (exampleQuery "00" "h" "2000")
    else none
  httpGet := fun _ => .ok (200, "ciphertext")
  statusText := fun _ => "OK"
  scalarBaseMult := fun _ => (0, 0)
  generateKey := .ok 1
  readMessage := fun _ _ => .ok "plaintext"
  mailReadMessage := fun _ => .ok (exampleMessage.Header, "stream")
  readAll := fun _ => (exampleMessage.Body, none)
  parseURL := fun _ => .ok []
  sendMail := fun _ _ _ _ => none

/-- The world of the examples with a feed page of three items, the second of
which is the genesis item. -/
def genesisWorld : World :=
  { exampleWorld with
    parseURL := fun _ =>
      .ok [⟨"guid-1", "link-1"⟩, ⟨"GENESIS-ITEM", "link-2"⟩, ⟨"guid-3", "link-3"⟩] }

/-- Shared data with one subscription (`addr`) that forwards to the SMTP target
`mailbox`; the cutoff date is 1000 ns after the epoch. -/
def exampleCommon : common :=
  { Display := [("addr", { Addr := "addr", FwdTo := "mailbox" })]
    addrMail := { NewMail := [("addr", 0)] }
    fwdDataMap := [("mailbox", { fwdEmail := .viaSMTP "smtp-json" })]
    addrsDataMap := [("addr", { isFwd := true, feedLinksDone := some 1, wif := exampleWIF })]
    afterDate := 1000 }

/-- The shared data of the examples with the subscription as `webIndexHandler`
stores it: no wait group is set, `feedLinksDone` is the nil pointer. -/
def exampleCommonNilDone : common :=
  { exampleCommon with
    addrsDataMap := [("addr", { isFwd := true, feedLinksDone := none, wif := exampleWIF })] }

/-- The world of the examples with a feed that cannot be fetched. -/
def failingFeedWorld : World :=
  { exampleWorld with parseURL := fun _ => .error "connection refused" }

/-- The world of the examples with a feed page of three ordinary items. -/
def plainFeedWorld : World :=
  { exampleWorld with
    parseURL := fun _ => .ok [⟨"guid-1", "link-1"⟩, ⟨"guid-2", "link-2"⟩, ⟨"guid-3", "link-3"⟩] }

/-- The world of the examples in which the decrypted payload is not an RFC 822
message: `mail.ReadMessage` answers with an error. -/
def malformedMailWorld : World :=
  { exampleWorld with mailReadMessage := fun _ => .error "malformed MIME header line" }

/-- The first coordinate of the base point of secp256k1. -/
def S256Gx : Nat := 0x79BE667EF9DCBBAC55A06295CE870B07029BFCDB2DCE28D959F2815B16F81798

/-- The second coordinate of the base point of secp256k1. -/
def S256Gy : Nat := 0x483ADA7726A3C4655DA4FBFC0E1108A8FD17B448A68554199C47D08FFB10D4B8

/-- The WIF of the private key 1 with the version byte 0x80. -/
def wifBTC : String := "5HpHagT65TZzG1PH3CSu63k8DbpvD8s5ip4nEB3kEsreAnchuDf"

/-- The WIF of the private key 1 with the version byte 0x42, which is in no
case of the currency switch. -/
def wifOther : String := "3DJ8eJd7F5dwu9MYqFxwxAa7SXePuUcnwBg76tQAcFSbaAromjQ"

/-- The testnet address of the uncompressed public key of the private key 1. -/
def addrOfKeyOne : String := "mtoKs9V381UAhUia3d7Vb9GNak8Qvmcsme"

/-- The libraries on the two example credentials and on the string `2g`, which
decodes to one byte; every other string is not base58. The key directory holds
the compressed base point, and `ScalarMult` is the one for the scalar 1. -/
def exampleLib : KeyLib where
  base58DecodeString := fun s =>
    if s = wifBTC then .ok (0x80 :: (List.replicate 31 0 ++ [1, 168, 90, 168, 126]))
    else if s = wifOther then .ok (0x42 :: (List.replicate 31 0 ++ [1, 31, 13, 157, 235]))
    else if s = "2g" then .ok [97]
    else .error "invalid base58 digit"
  DecodeWIF := fun s =>
    if s = wifBTC then .ok ⟨[1], false, 0x80, ellipticMarshal S256Gx S256Gy⟩
    else if s = wifOther then .ok ⟨[1], false, 0x42, ellipticMarshal S256Gx S256Gy⟩
    else .error "malformed private key"
  NewAddressPubKey := fun pk => .ok ⟨addrOfKeyOne, pk⟩
  pemDecode := fun _ => (some [48, 0], "")
  asn1Unmarshal := fun _ => .ok (2 :: natToBytes32 S256Gx, [])
  NewCompressedPublicKey := fun b =>
    if b.length = 33 then .ok b else .error "invalid compressed public key"
  Uncompress := fun _ => .ok (S256Gx, S256Gy)
  ScalarMult := fun x y _ => (x, y)

/-- The libraries of the examples with a key directory whose ASN.1 structure
has no `PublicKey` bit string: the counterpart key is the empty byte string. -/
def emptyKeyLib : KeyLib :=
  { exampleLib with asn1Unmarshal := fun _ => .ok ([], []) }

/-- Shared data before any request: no subscription and no forwarding. -/
def emptyCommon : common := {}

/-- The credential that `unmarshalWIF` derives from `wifBTC` in the examples. -/
def exampleCredential : WIF :=
  { wif := wifBTC, addr := addrOfKeyOne, currency := "BTC", priKey := [1],
    pubKey := ellipticMarshal S256Gx S256Gy, sharedKey := ellipticMarshal S256Gx S256Gy }

/-- An SMTP forwarding without credentials. -/
def exampleVia : fwdVia :=
  { SMTP := some { V1 := some { To := ["me@example.com"], Address := "smtp.example.com:25" } } }

/-- Headers with a key `to` in lower case next to the canonical `To`. -/
def exampleHeaders : Header :=
  [("X-Mailer", ["m"]), ("to", ["x"]), ("From", ["alice"]), ("Subject", ["hi"]),
   ("To", ["bob"])]

/-- The text `{}`: a JSON object without members. -/
def emptyObjectJSON : String := "\x7b\x7d"

/-- An HTTP-API forwarding by POST with two parameters. -/
def httpPostV1 : fwdViaHTTPAPIV1 :=
  { ToVals := ["me@example.com"]
    URLVal := "https://api.example.com/send?key=k"
    MethodVal := "POST"
    ParametersVals :=
      [("from", ["\x7b\x7b.From\x7d\x7d"]), ("subject", ["\x7b\x7b.Subject\x7d\x7d"])] }

/-- The forwarding JSON with the HTTP-API part `httpPostV1`. -/
def httpPostVia : fwdVia :=
  { HTTPAPI := some { V1 := some httpPostV1 } }

/-- An HTTP-API forwarding by GET with two parameters. -/
def httpGetV1 : fwdViaHTTPAPIV1 :=
  { ToVals := ["me@example.com"]
    URLVal := "https://api.example.com/send?key=k"
    MethodVal := "GET"
    ParametersVals :=
      [("from", ["\x7b\x7b.From\x7d\x7d"]), ("subject", ["\x7b\x7b.Subject\x7d\x7d"])] }

/-- The forwarding JSON with the HTTP-API part `httpGetV1`. -/
def httpGetVia : fwdVia :=
  { HTTPAPI := some { V1 := some httpGetV1 } }

/-- An HTTP-API forwarding by POST with two parameters, sent as a multipart
form. -/
def httpFormV1 : fwdViaHTTPAPIV1 :=
  { ToVals := ["me@example.com"]
    URLVal := "https://api.example.com/send?key=k"
    MethodVal := "POST"
    HeadersVals := [("Content-Type", "multipart/form-data")]
    ParametersVals :=
      [("from", ["\x7b\x7b.From\x7d\x7d"]), ("subject", ["\x7b\x7b.Subject\x7d\x7d"])] }

/-- The forwarding JSON with the HTTP-API part `httpFormV1`. -/
def httpFormVia : fwdVia :=
  { HTTPAPI := some { V1 := some httpFormV1 } }

/-- The libraries on the texts of the examples: four JSON texts decode, media
types are read as they stand, a template is one of the four fields or a plain
text, and values are joined without escaping. -/
def exampleWebLib : WebLib where
  jsonUnmarshal := fun text =>
    if text = emptyObjectJSON then .ok {}
    else if text = "smtp-json" then .ok exampleVia
    else if text = "http-post-json" then .ok httpPostVia
    else if text = "http-get-json" then .ok httpGetVia
    else .error "invalid character"
  parseMediaType := fun v => (v, [])
  multipartParts := fun _ _ => []
  urlParse := fun raw =>
    if raw = "https://api.example.com/send?key=k" then
      .ok
        { Scheme := "https", Host := "api.example.com", Path := "/send", RawQuery := "key=k" }
    else .error "missing protocol scheme"
  templateParse := fun _ _ => none
  templateExecute := fun text data =>
    .ok (if text = "\x7b\x7b.From\x7d\x7d" then data.From
      else if text = "\x7b\x7b.Subject\x7d\x7d" then data.Subject
      else if text = "\x7b\x7b.Text\x7d\x7d" then data.Text
      else if text = "\x7b\x7b.HTML\x7d\x7d" then data.HTML
      else text)
  parseQuery := fun raw => if raw = "key=k" then [("key", ["k"])] else []
  valuesEncode := fun v =>
    String.intercalate "&" (v.flatMap fun kv => kv.2.map fun x => kv.1 ++ "=" ++ x)
  boundary := "b0"
  formDataContentType := fun b => "multipart/form-data; boundary=" ++ b
  multipartForm := fun b fields =>
    String.join (fields.map fun f => "--" ++ b ++ " " ++ f.1 ++ "=" ++ f.2 ++ " ") ++
      "--" ++ b ++ "--"
  nowUnix := 1600000000
  nowRFC822 := "13 Sep 20 12:26 UTC"

/-- The shared data of the examples with a second forwarding, `spare-box`, that
no address forwards to. -/
def spareCommon : common :=
  { exampleCommon with
    fwdDataMap :=
      [("mailbox", { fwdEmail := .viaSMTP "smtp-json" }),
       ("spare-box", { fwdEmail := .viaSMTP "smtp-json" })]
    FwdDisplays :=
      [("mailbox", { Name := "mailbox", JSON := "smtp-json" }),
       ("spare-box", { Name := "spare box", JSON := "smtp-json" })] }

set_option maxRecDepth 100000

/-! ## Lemmas on maps and on the building blocks -/

theorem GoMap.lookup_insert_self {V : Type} (m : GoMap V) (k : String) (v : V) :
    List.lookup k (GoMap.insert m k v) = some v := by
  induction m with
  | nil => simp [GoMap.insert, List.lookup]
  | cons p rest ih =>
    obtain ⟨k0, v0⟩ := p
    by_cases h : k0 = k
    · simp [GoMap.insert, h, List.lookup]
    · have h2 : (k == k0) = false := by simpa using fun e => h e.symm
      simp [GoMap.insert, h, List.lookup, h2, ih]

theorem GoMap.lookup_insert_ne {V : Type} (m : GoMap V) (k k2 : String) (v : V)
    (hne : k2 ≠ k) : List.lookup k2 (GoMap.insert m k v) = List.lookup k2 m := by
  induction m with
  | nil =>
    have h2 : (k2 == k) = false := by simpa using hne
    simp [GoMap.insert, List.lookup, h2]
  | cons p rest ih =>
    obtain ⟨k0, v0⟩ := p
    by_cases h : k0 = k
    · subst h
      have h2 : (k2 == k0) = false := by simpa using hne
      simp [GoMap.insert, List.lookup, h2]
    · by_cases h3 : k2 = k0
      · subst h3
        simp [GoMap.insert, h, List.lookup]
      · have h4 : (k2 == k0) = false := by simpa using h3
        simp [GoMap.insert, h, List.lookup, h4, ih]

/-- The counter of the address goes up by one under `incrNewMailCnt`. -/
theorem newMailCnt_incr_self (c : common) (addr : String) :
    (c.incrNewMailCnt addr).newMailCnt addr = c.newMailCnt addr + 1 := by
  simp [common.incrNewMailCnt, addrMail.incrNewMailCnt, common.newMailCnt,
    GoMap.lookup_insert_self]

/-- The counters of the other addresses stay as they are under `incrNewMailCnt`. -/
theorem newMailCnt_incr_other (c : common) (addr other : String) (hne : other ≠ addr) :
    (c.incrNewMailCnt addr).newMailCnt other = c.newMailCnt other := by
  simp [common.incrNewMailCnt, addrMail.incrNewMailCnt, common.newMailCnt,
    GoMap.lookup_insert_ne _ _ _ _ hne]

/-- Counting a mail does not move the cutoff date. -/
theorem incr_afterDate (c : common) (addr : String) :
    (c.incrNewMailCnt addr).afterDate = c.afterDate := rfl

/-- The two MAC inputs of `checkMetaLink` are different texts: they part at
the fifteenth character of their context markers. -/
theorem metaText_ne_contentText (addr conHash timestamp : String) :
    metaText addr conHash timestamp ≠ contentText addr conHash timestamp := by
  intro h
  have h2 := congrArg String.data h
  simp [metaText, contentText] at h2

/-- The test vector of RFC 4231, section 4.2, for HMAC-SHA256. -/
theorem hmacSHA256_rfc4231_case1 :
    hexEncodeToString (hmacSHA256 (List.replicate 20 0x0b) (stringBytes "Hi There")) =
      "b0344c61d8db38535ca8afceaf0bf12b881dc200c9833da726e9376c2e32cff7" := by
  decide!

/-- A matching tag makes `checkMetaLink` answer with the Stage-2 digest. -/
theorem checkMetaLink_matched (wif : WIF) (id conHash timestamp : String)
    (h : id = hmacHex wif.sharedKey (metaText wif.addr conHash timestamp)) :
    checkMetaLink wif id conHash timestamp =
      (hmacHex wif.sharedKey (contentText wif.addr conHash timestamp), true) := by
  simp [checkMetaLink, h]

/-- The only event of `getContentMsg` is its HTTP request. -/
theorem getContentMsg_events (w : World) (wif : WIF) (contentHash : String) (ts : Int) :
    (getContentMsg w wif contentHash ts).1 =
      [Event.httpGet ("https://content.pubkemail.com/v1/" ++ contentHash)] := by
  unfold getContentMsg
  simp only []
  repeat' split
  all_goals rfl

/-- Whatever happens after it, the matched block has counted the mail and has
changed nothing else of the shared data. -/
theorem termAddrCheckerMatched_c (w : World) (c : common) (addr : String) (wif : WIF)
    (contentEmailHash tsParam : String) :
    (termAddrCheckerMatched w c addr wif contentEmailHash tsParam).c = c.incrNewMailCnt addr := by
  unfold termAddrCheckerMatched
  simp only []
  repeat' split
  all_goals rfl

/-- The shared data after an iteration on a link that parses and matches. -/
theorem termAddrCheckerIter_c_matched (w : World) (c : common) (addr link : String)
    (u : String → String) (hu : w.urlParse link = some u)
    (hm : (checkMetaLink (c.wif addr) (u "check") (u "hash") (u "ts")).2 = true) :
    (termAddrCheckerIter w c addr (.link link)).c = c.incrNewMailCnt addr := by
  have h := termAddrCheckerMatched_c w c addr (c.wif addr)
    (checkMetaLink (c.wif addr) (u "check") (u "hash") (u "ts")).1 (u "ts")
  unfold termAddrCheckerIter termAddrCheckerLink
  simp only [hu, hm, if_true]
  unfold Outcome.andThen Outcome.endSelect
  repeat' split
  all_goals simp_all

/-- No iteration of the checker leaves its loop: the `break` of the `done`
case ends the `select` statement only. -/
theorem termAddrCheckerIter_never_returns (w : World) (c : common) (addr : String)
    (r : Ready) : (termAddrCheckerIter w c addr r).ctl.forStatus ≠ .returned := by
  unfold termAddrCheckerIter
  generalize (match r with
    | .link l => termAddrCheckerLink w c addr l
    | .done => termAddrCheckerDone c addr) = o
  obtain ⟨c2, evs, ctl⟩ := o
  cases ctl <;> simp [Outcome.endSelect, Outcome.andThen, Ctl.forStatus]

/-- Sending one more link to every queue extends what every queue received. -/
theorem sendFeedLink_addrsDataMap (c : common) (link : String) (m : GoMap addrData)
    (links : List String)
    (h : c.addrsDataMap = m.map fun kd =>
      (kd.1, { kd.2 with feedLinks := kd.2.feedLinks ++ links })) :
    (sendFeedLink c link).addrsDataMap = m.map fun kd =>
      (kd.1, { kd.2 with feedLinks := kd.2.feedLinks ++ (links ++ [link]) }) := by
  simp [sendFeedLink, h, List.map_map, Function.comp_def, List.append_assoc]

/-- The item loop on a page with a genesis item: the cursor ends at 1 and every
queue has received the links of the items before the first genesis item. -/
theorem termReadFeedItems_genesis (items : List Item) :
    ∀ (page : Int) (c : common) (m : GoMap addrData) (links : List String),
      (∃ item ∈ items, item.GUID = "GENESIS-ITEM") →
      (c.addrsDataMap = m.map fun kd =>
        (kd.1, { kd.2 with feedLinks := kd.2.feedLinks ++ links })) →
      (termReadFeedItems items page c).page = 1 ∧
      (termReadFeedItems items page c).c.addrsDataMap = m.map fun kd =>
        (kd.1, { kd.2 with feedLinks := kd.2.feedLinks ++
          (links ++ (items.takeWhile fun it => it.GUID != "GENESIS-ITEM").map Item.Link) }) := by
  induction items with
  | nil => intro page c m links h; simp at h
  | cons item rest ih =>
    intro page c m links h hc
    by_cases hg : item.GUID = "GENESIS-ITEM"
    · simp [termReadFeedItems, hg, hc]
    · have hrest : ∃ it ∈ rest, it.GUID = "GENESIS-ITEM" := by
        obtain ⟨it, hmem, hit⟩ := h
        rcases List.mem_cons.mp hmem with rfl | hmem
        · exact absurd hit hg
        · exact ⟨it, hmem, hit⟩
      have h2 := ih (page + 1) (sendFeedLink c item.Link) m (links ++ [item.Link]) hrest
        (sendFeedLink_addrsDataMap c item.Link m links hc)
      simp only [termReadFeedItems, hg, if_false]
      have hne : (item.GUID != "GENESIS-ITEM") = true := by simpa using hg
      simp only [List.takeWhile_cons, hne, if_true, List.map_cons]
      simpa [List.append_assoc] using h2

/-- The item loop in general: every queue receives the links of the items
before the first genesis item, in page order. -/
theorem termReadFeedItems_addrsDataMap (items : List Item) :
    ∀ (page : Int) (c : common) (m : GoMap addrData) (links : List String),
      (c.addrsDataMap = m.map fun kd =>
        (kd.1, { kd.2 with feedLinks := kd.2.feedLinks ++ links })) →
      (termReadFeedItems items page c).c.addrsDataMap = m.map fun kd =>
        (kd.1, { kd.2 with feedLinks := kd.2.feedLinks ++
          (links ++ (items.takeWhile fun it => it.GUID != "GENESIS-ITEM").map Item.Link) }) := by
  induction items with
  | nil => intro page c m links hc; simp [termReadFeedItems, hc]
  | cons item rest ih =>
    intro page c m links hc
    by_cases hg : item.GUID = "GENESIS-ITEM"
    · simp [termReadFeedItems, hg, hc]
    · have h2 := ih (page + 1) (sendFeedLink c item.Link) m (links ++ [item.Link])
        (sendFeedLink_addrsDataMap c item.Link m links hc)
      simp only [termReadFeedItems, hg, if_false]
      have hne : (item.GUID != "GENESIS-ITEM") = true := by simpa using hg
      simp only [List.takeWhile_cons, hne, if_true, List.map_cons]
      simpa [List.append_assoc] using h2

/-- The item loop on a page without a genesis item: the cursor moves by the
number of items. -/
theorem termReadFeedItems_page (items : List Item) :
    ∀ (page : Int) (c : common), (∀ it ∈ items, it.GUID ≠ "GENESIS-ITEM") →
      (termReadFeedItems items page c).page = page + items.length := by
  induction items with
  | nil => intro page c _; simp [termReadFeedItems]
  | cons item rest ih =>
    intro page c h
    have hg : item.GUID ≠ "GENESIS-ITEM" := h item (List.mem_cons_self _ _)
    have h2 := ih (page + 1) (sendFeedLink c item.Link)
      (fun it hit => h it (List.mem_cons_of_mem _ hit))
    simp only [termReadFeedItems, hg, if_false, h2, List.length_cons]
    push_cast
    ring

/-- An empty page ends the loop of `termReadFeed`: the `break` of that branch
is not inside the item loop, it leaves the outer `for`. -/
theorem termReadFeedIter_empty_page (w : World) (page : Int) (c : common)
    (hsub : c.addrsDataMap ≠ []) (hfetch : w.parseURL (feedURL page 250) = .ok []) :
    (termReadFeedIter w page c).ctl.forStatus = .returned := by
  have hlen : ¬ c.addrsDataMap.length = 0 := by
    intro h0; exact hsub (List.length_eq_zero.mp h0)
  unfold termReadFeedIter
  simp [hlen, hfetch, Ctl.forStatus]

/-- When `mail.ReadMessage` fails on the decrypted payload, `getContentMsg`
does not return: it goes on to `msg.Body` with a nil `msg`. -/
theorem getContentMsg_mailReadMessage_error (w : World) (wif : WIF) (contentHash : String)
    (ts : Int) (body plain e : String) (key : Nat)
    (hget : w.httpGet ("https://content.pubkemail.com/v1/" ++ contentHash) = .ok (200, body))
    (hkey : w.generateKey = .ok key)
    (hdec : ∀ en, w.readMessage body en = .ok plain)
    (hmail : w.mailReadMessage plain = .error e) :
    (getContentMsg w wif contentHash ts).2 = .panic := by
  unfold getContentMsg
  simp only [hget, hkey, hdec, hmail]
  simp [newEntity, userIdFieldOk]

/-- The only event of `remotePublicKey` is its HTTP request. -/
theorem remotePublicKey_events (w : World) (lib : KeyLib) (x : List Nat) :
    (remotePublicKey w lib x).1 =
      [Event.httpGet ("http://shared.pubkemail.com/public/key/" ++ hexEncodeToString x)] := by
  unfold remotePublicKey
  simp only []
  repeat' split
  all_goals rfl

/-- No checker is started inside `sharedKey`: its events are log lines. -/
theorem sharedKey_events (lib : KeyLib) (pubKey priKey : List Nat) :
    (sharedKey lib pubKey priKey).1.filter Event.isGo = [] := by
  unfold sharedKey
  repeat' split
  all_goals simp [Event.isGo]

/-- No checker is started inside `unmarshalWIF`. -/
theorem unmarshalWIF_events (w : World) (lib : KeyLib) (wifStr : String) :
    (unmarshalWIF w lib wifStr).1.filter Event.isGo = [] := by
  unfold unmarshalWIF
  simp only []
  repeat' split
  all_goals simp [remotePublicKey_events, sharedKey_events, Event.isGo]

/-- The deferred function of the handler touches neither the maps nor the
counters and starts no checker. -/
theorem webIndexHandlerDeferred_maps (c : common) (err : handlerErr) :
    (webIndexHandlerDeferred c err).1.addrsDataMap = c.addrsDataMap ∧
      (webIndexHandlerDeferred c err).1.Display = c.Display ∧
      (webIndexHandlerDeferred c err).1.addrMail = c.addrMail ∧
      (webIndexHandlerDeferred c err).1.fwdDataMap = c.fwdDataMap ∧
      (webIndexHandlerDeferred c err).2.filter Event.isGo = [] := by
  cases err <;> simp [webIndexHandlerDeferred, Event.isGo]

/-- The key loop of `fwdSMTPEmail`, from any list of keys collected so far. -/
theorem smtpHeaderKeys_foldl (headers : Header) (acc : List String) :
    headers.foldl (fun keys kv =>
      if lowerEq kv.1 "to" || lowerEq kv.1 "from" || lowerEq kv.1 "subject" then keys
      else keys ++ [kv.1]) acc =
    acc ++ (headers.map (·.1)).filter
      (fun k => !(lowerEq k "to" || lowerEq k "from" || lowerEq k "subject")) := by
  induction headers generalizing acc with
  | nil => simp
  | cons kv rest ih =>
    simp only [List.foldl_cons, List.map_cons, List.filter_cons]
    rw [ih]
    by_cases h : (lowerEq kv.1 "to" || lowerEq kv.1 "from" || lowerEq kv.1 "subject") = true
    · simp [h]
    · simp [h]

/-- The key loop of `fwdSMTPEmail` is a filter of the keys of the headers. -/
theorem smtpHeaderKeys_eq (headers : Header) :
    smtpHeaderKeys headers = (headers.map (·.1)).filter
      (fun k => !(lowerEq k "to" || lowerEq k "from" || lowerEq k "subject")) := by
  unfold smtpHeaderKeys
  rw [smtpHeaderKeys_foldl]
  simp

/-- The line loop of `fwdSMTPEmail` appends one line for each key. -/
theorem smtpHeaderLines_foldl (headers : Header) (keys : List String) (init : String) :
    keys.foldl (fun msg k => msg ++ (k ++ ": " ++ headers.GetKey k ++ "\r\n")) init =
      init ++ String.join (keys.map fun k => k ++ ": " ++ headers.GetKey k ++ "\r\n") := by
  induction keys generalizing init with
  | nil => apply String.ext; simp [String.join]
  | cons k rest ih =>
    simp only [List.foldl_cons, List.map_cons]
    rw [ih]
    apply String.ext
    simp [String.data_join, String.data_append, List.append_assoc]

/-- The lines of two lists of keys, one after the other. -/
theorem smtpHeaderLines_append (headers : Header) (keys more : List String) :
    smtpHeaderLines headers (keys ++ more) =
      smtpHeaderLines headers keys ++ smtpHeaderLines headers more := by
  unfold smtpHeaderLines
  rw [smtpHeaderLines_foldl, smtpHeaderLines_foldl, smtpHeaderLines_foldl]
  apply String.ext
  simp [String.data_join, String.data_append, List.append_assoc]

/-! ### Truncation, the forwarding requests and the HTTP-API request -/

/-- The result of `txtTruncate` has as many bytes as the text, whatever the
value of `length`: the last three bytes are replaced by the ellipsis, or the
text is returned as it is. -/
theorem txtTruncate_length (text : List Nat) (length : Int) :
    (txtTruncate text length).length = text.length := by
  unfold txtTruncate
  split
  · rename_i h
    have h3 : (stringBytes "...").length = 3 := by decide
    rw [List.length_append, List.length_take, h3]
    omega
  · rfl

/-- The loop of the forwarding deletion changes nothing when no address of the
entries forwards to the name. -/
theorem deleteFwdLoop_unused (name : String) (ds : List (String × AddrDisplay)) (c : common)
    (h : ∀ d ∈ ds, d.2.FwdTo ≠ name) : deleteFwdLoop name ds c = c := by
  induction ds generalizing c with
  | nil => rfl
  | cons d rest ih =>
    obtain ⟨addr, display⟩ := d
    have hd : display.FwdTo ≠ name := h (addr, display) (List.mem_cons_self _ _)
    simp only [deleteFwdLoop, hd, if_false]
    exact ih c fun d hmem => h d (List.mem_cons_of_mem _ hmem)

/-- The deletion of a forwarding that no address forwards to: the forwarding
map is as before, and the text says the forwarding was deleted. -/
theorem webIndexHandlerFwd_delete_unused (lib : WebLib) (c : common)
    (fwdNameText fwdJSONText : String)
    (hname : trimSpaceIsEmpty fwdNameText = false)
    (hjson : trimSpaceIsEmpty fwdJSONText = true)
    (h : ∀ d ∈ c.Display, d.2.FwdTo ≠ spacesToDashes fwdNameText) :
    (webIndexHandlerFwd lib c fwdNameText fwdJSONText false).c.fwdDataMap = c.fwdDataMap ∧
    (webIndexHandlerFwd lib c fwdNameText fwdJSONText false).c.MainContentInfoText =
      "You have deleted the Forwarding: " ++ fwdNameText ++ "." := by
  simp [webIndexHandlerFwd, hname, hjson, deleteFwdLoop_unused _ _ _ h, webIndexHandlerReturn,
    webIndexHandlerDeferred]

/-- A forwarding JSON that decodes without an `smtp` and without an `http-api`
part: the nil function is stored under the name in the forwarding map, the
forwarding display gets its entry, and a test calls the nil function. -/
theorem webIndexHandlerFwd_no_section (lib : WebLib) (c : common)
    (fwdNameText fwdJSONText : String) (via : fwdVia)
    (hname : trimSpaceIsEmpty fwdNameText = false)
    (hjson : trimSpaceIsEmpty fwdJSONText = false)
    (h : lib.jsonUnmarshal fwdJSONText = .ok via)
    (hsmtp : via.SMTP = none) (hhttp : via.HTTPAPI = none) :
    (webIndexHandlerFwd lib c fwdNameText fwdJSONText false).c.fwdDataMap =
      c.fwdDataMap.insert (spacesToDashes fwdNameText) { fwdEmail := .nil } ∧
    (webIndexHandlerFwd lib c fwdNameText fwdJSONText false).c.FwdDisplays =
      c.FwdDisplays.insert (spacesToDashes fwdNameText)
        { Name := fwdNameText, JSON := fwdJSONText } ∧
    (webIndexHandlerFwd lib c fwdNameText fwdJSONText true).ctl = .panic := by
  simp [webIndexHandlerFwd, hname, hjson, h, hsmtp, hhttp, webIndexHandlerReturn,
    webIndexHandlerDeferred]

/-- The loop over the headers leaves `useMultipart` false when no header
`content-type` has the media type `multipart/form-data`. -/
theorem httpAPIHeaders_useMultipart (lib : WebLib) (data : TemplateData)
    (hs : List (String × String)) (header : GoMap (List String))
    (hm : ∀ kv ∈ hs, lowerEq kv.1 "content-type" = true →
      ((lib.parseMediaType kv.2).1 == "multipart/form-data") = false)
    (um : Bool) (h2 : GoMap (List String))
    (h : httpAPIHeaders lib data hs false header = .ok (um, h2)) : um = false := by
  induction hs generalizing header with
  | nil =>
    simp only [httpAPIHeaders, Except.ok.injEq, Prod.mk.injEq] at h
    exact h.1.symm
  | cons kv rest ih =>
    obtain ⟨k, v⟩ := kv
    have hk := hm (k, v) (List.mem_cons_self _ _)
    have hum : (if lowerEq k "content-type" = true then
        (lib.parseMediaType v).1 == "multipart/form-data" else false) = false := by
      by_cases hl : lowerEq k "content-type" = true
      · simp [hl, hk hl]
      · simp [hl]
    simp only [httpAPIHeaders, hum] at h
    cases hp : lib.templateParse k v with
    | some e => simp [hp] at h
    | none =>
      simp only [hp] at h
      cases he : lib.templateExecute v data with
      | error e => simp [he] at h
      | ok out =>
        simp only [he] at h
        exact ih _ (fun kv hmem => hm kv (List.mem_cons_of_mem _ hmem)) h

/-- Without multipart, the loop over the values of a parameter leaves the
fields and `q` as they are. -/
theorem httpAPIParamValues_false (lib : WebLib) (data : TemplateData) (k : String)
    (vv : List String) (fields f2 : List (String × String)) (q q2 : URL)
    (h : httpAPIParamValues lib data false k vv fields q = .ok (f2, q2)) :
    f2 = fields ∧ q2 = q := by
  induction vv with
  | nil =>
    simp only [httpAPIParamValues, Except.ok.injEq, Prod.mk.injEq] at h
    exact ⟨h.1.symm, h.2.symm⟩
  | cons v rest ih =>
    simp only [httpAPIParamValues] at h
    cases hp : lib.templateParse k v with
    | some e => simp [hp] at h
    | none =>
      simp only [hp] at h
      cases he : lib.templateExecute v data with
      | error e => simp [he] at h
      | ok out =>
        simp only [he] at h
        exact ih (by simpa using h)

/-- Without multipart, the loop over the parameters leaves the fields and `q`
as they are. -/
theorem httpAPIParams_false (lib : WebLib) (data : TemplateData)
    (ps : List (String × List String)) (fields f2 : List (String × String)) (q q2 : URL)
    (h : httpAPIParams lib data false ps fields q = .ok (f2, q2)) :
    f2 = fields ∧ q2 = q := by
  induction ps with
  | nil =>
    simp only [httpAPIParams, Except.ok.injEq, Prod.mk.injEq] at h
    exact ⟨h.1.symm, h.2.symm⟩
  | cons p rest ih =>
    obtain ⟨k, vv⟩ := p
    simp only [httpAPIParams] at h
    cases hv : httpAPIParamValues lib data false k vv fields q with
    | error e => simp [hv] at h
    | ok r =>
      obtain ⟨f1, q1⟩ := r
      obtain ⟨hf, hq⟩ := httpAPIParamValues_false lib data k vv fields f1 q q1 hv
      subst hf; subst hq
      simp only [hv] at h
      exact ih h

/-- A request that is built without multipart has an empty raw query and no
body when the method is `GET`, and the empty body otherwise, whatever the
parameters are. -/
theorem httpAPIRequest_without_multipart (lib : WebLib) (v1 : fwdViaHTTPAPIV1)
    (data : TemplateData) (req : Request)
    (hm : ∀ kv ∈ v1.HeadersVals, lowerEq kv.1 "content-type" = true →
      ((lib.parseMediaType kv.2).1 == "multipart/form-data") = false)
    (h : httpAPIRequest lib v1 data = .ok req) :
    (v1.MethodVal = "GET" → req.URL.RawQuery = "" ∧ req.Body = none) ∧
    (v1.MethodVal ≠ "GET" → req.Body = some "") := by
  unfold httpAPIRequest at h
  cases hu : lib.urlParse v1.URLVal with
  | error e => simp [hu] at h
  | ok u =>
    simp only [hu] at h
    cases hh : httpAPIHeaders lib data v1.HeadersVals false [] with
    | error e => simp [hh] at h
    | ok r =>
      obtain ⟨um, header⟩ := r
      have hum := httpAPIHeaders_useMultipart lib data _ _ hm um header hh
      subst hum
      simp only [hh] at h
      cases hp : httpAPIParams lib data false v1.ParametersVals [] {} with
      | error e => simp [hp] at h
      | ok r2 =>
        obtain ⟨f2, q2⟩ := r2
        obtain ⟨hf, hq⟩ := httpAPIParams_false lib data _ _ _ _ _ hp
        subst hf; subst hq
        simp only [hp] at h
        by_cases hg : v1.MethodVal = "GET"
        · simp [hg] at h
          subst h
          simp [hg]
        · simp [hg] at h
          subst h
          simp [hg, valuesEncode, URL.Query]

/-! ## The link verifier -/

/-- C1. Round trip of `checkMetaLink`: when the claimed tag `id` is the
lowercase hex HMAC-SHA256, under the shared secret, of
`com.pubkemail.meta.v1:<addr>/<conHash>:<timestamp>`, the function answers
`ok = true` with the lowercase hex HMAC-SHA256, under the same secret, of
`com.pubkemail.content.v1:<addr>/<conHash>:<timestamp>`. -/
theorem checkMetaLink_round_trip (wif : WIF) (id conHash timestamp : String)
    (hid : id = hexEncodeToString (hmacSHA256 wif.sharedKey
      (stringBytes ("com.pubkemail.meta.v1:" ++ wif.addr ++ "/" ++ conHash ++ ":" ++ timestamp)))) :
    checkMetaLink wif id conHash timestamp =
      (hexEncodeToString (hmacSHA256 wif.sharedKey
        (stringBytes ("com.pubkemail.content.v1:" ++ wif.addr ++ "/" ++ conHash ++ ":" ++ timestamp))),
       true) := by
  subst hid
  simp [checkMetaLink, hmacHex, metaText, contentText]

/-- The round trip at the credential `exampleWIF` (address `addr`, secret
`01 02 03`), content hash `h` and timestamp `12`: the tag written out is the
Stage-1 digest, and the answer is `ok` with the Stage-2 digest. -/
theorem checkMetaLink_round_trip_witness :
    "3873ca5405271313cef62824b0bff6b9de7ee53b27e08fd3dc3006f420fa3df9" =
        hexEncodeToString (hmacSHA256 exampleWIF.sharedKey
          (stringBytes ("com.pubkemail.meta.v1:" ++ exampleWIF.addr ++ "/" ++ "h" ++ ":" ++ "12"))) ∧
      checkMetaLink exampleWIF
          "3873ca5405271313cef62824b0bff6b9de7ee53b27e08fd3dc3006f420fa3df9" "h" "12" =
        (hexEncodeToString (hmacSHA256 exampleWIF.sharedKey
          (stringBytes ("com.pubkemail.content.v1:" ++ exampleWIF.addr ++ "/" ++ "h" ++ ":" ++ "12"))),
         true) :=
  ⟨by decide!, checkMetaLink_round_trip exampleWIF _ "h" "12" (by decide!)⟩

/-- C2. `checkMetaLink` answers `ok = true` exactly when `id` is string-equal to
the hex Stage-1 digest, and whenever it answers `ok = false` the returned
content locator is the empty string; the function is total, it has no error
result. -/
theorem checkMetaLink_ok_iff (wif : WIF) (id conHash timestamp : String) :
    ((checkMetaLink wif id conHash timestamp).2 = true ↔
        id = hexEncodeToString (hmacSHA256 wif.sharedKey
          (stringBytes (metaText wif.addr conHash timestamp)))) ∧
      ((checkMetaLink wif id conHash timestamp).2 = false →
        (checkMetaLink wif id conHash timestamp).1 = "") := by
  unfold checkMetaLink hmacHex
  by_cases h : id = hexEncodeToString (hmacSHA256 wif.sharedKey
      (stringBytes (metaText wif.addr conHash timestamp)))
  · simp [h]
  · simp [h]

/-! ## The address checker -/

/-- C4. The freshness filter of `termAddrChecker` is strict: when the `ts`
parameter of an inbound link, read as nanoseconds since the Unix epoch, is not
after the cutoff date (equal to it included), the iteration that processes the
link makes no HTTP request and calls no forwarding function. -/
theorem freshness_filter_strict (w : World) (c : common) (addr link : String)
    (u : String → String) (ts : Int)
    (hu : w.urlParse link = some u) (hts : ParseInt (u "ts") = some ts)
    (hle : ts ≤ c.afterDate) :
    (termAddrCheckerIter w c addr (.link link)).events.filter
      (fun e => e.isFetch || e.isForward) = [] := by
  unfold termAddrCheckerIter termAddrCheckerLink
  simp only [hu]
  by_cases hm : (checkMetaLink (c.wif addr) (u "check") (u "hash") (u "ts")).2 = true
  · have h2 : ¬ (ts > (c.incrNewMailCnt addr).afterDate) := by
      rw [incr_afterDate]; omega
    simp [hm, termAddrCheckerMatched, hts, h2, Outcome.andThen, Outcome.endSelect]
  · simp [hm, Outcome.andThen, Outcome.endSelect, Event.isFetch, Event.isForward]

/-- The freshness filter at the matching link `staleLink`, whose timestamp 12
is before the cutoff 1000 of `exampleCommon`. -/
theorem freshness_filter_strict_witness :
    (termAddrCheckerIter exampleWorld exampleCommon "addr" (.link staleLink)).events.filter
      (fun e => e.isFetch || e.isForward) = [] :=
  freshness_filter_strict exampleWorld exampleCommon "addr" staleLink
    (exampleQuery "3873ca5405271313cef62824b0bff6b9de7ee53b27e08fd3dc3006f420fa3df9" "h" "12")
    12 rfl (by decide!) (by decide!)

/-- C5. When the `check` parameter of an inbound link is not the Stage-1 digest
of the address, the iteration of `termAddrChecker` that processes the link
makes no HTTP request, calls no forwarding function, and leaves the unread
counters of all addresses as they were. -/
theorem no_match_no_effect (w : World) (c : common) (addr link : String)
    (u : String → String) (hu : w.urlParse link = some u)
    (hne : u "check" ≠ hmacHex (c.wif addr).sharedKey
      (metaText (c.wif addr).addr (u "hash") (u "ts"))) :
    (termAddrCheckerIter w c addr (.link link)).events.filter
        (fun e => e.isFetch || e.isForward) = [] ∧
      (termAddrCheckerIter w c addr (.link link)).c.addrMail.NewMail = c.addrMail.NewMail := by
  have hm : (checkMetaLink (c.wif addr) (u "check") (u "hash") (u "ts")).2 = false := by
    simp [checkMetaLink, hne]
  unfold termAddrCheckerIter termAddrCheckerLink
  simp [hu, hm, Outcome.andThen, Outcome.endSelect, Event.isFetch, Event.isForward]

/-- The link `foreignLink`, whose tag `00` is not the Stage-1 digest of `addr`,
causes no request and no forward and leaves the counters alone. -/
theorem no_match_no_effect_witness :
    (termAddrCheckerIter exampleWorld exampleCommon "addr" (.link foreignLink)).events.filter
        (fun e => e.isFetch || e.isForward) = [] ∧
      (termAddrCheckerIter exampleWorld exampleCommon "addr"
          (.link foreignLink)).c.addrMail.NewMail = exampleCommon.addrMail.NewMail :=
  no_match_no_effect exampleWorld exampleCommon "addr" foreignLink
    (exampleQuery "00" "h" "2000") rfl (by decide!)

/-- C6. For a link that matches the address, has a timestamp after the cutoff
and whose content is fetched and decrypted without error, with the forwarding
target of the address present in the forwarding map with a forwarding function
`f`: the iteration calls `f` exactly once, with the From header, the Subject
header, the body and the headers of the message and `isTest = false`, and the
unread counter of the address goes up by exactly 1. -/
theorem matched_fresh_link_forwards_once (w : World) (c : common) (addr link : String)
    (u : String → String) (ts : Int) (msg : Message) (d : AddrDisplay) (f : fwdEmailFunc)
    (hu : w.urlParse link = some u)
    (hm : u "check" = hmacHex (c.wif addr).sharedKey
      (metaText (c.wif addr).addr (u "hash") (u "ts")))
    (hts : ParseInt (u "ts") = some ts) (hgt : c.afterDate < ts)
    (hget : (getContentMsg w (c.wif addr)
      (hmacHex (c.wif addr).sharedKey (contentText (c.wif addr).addr (u "hash") (u "ts")))
      ts).2 = .ret (some msg, none))
    (hd : c.Display.lookup addr = some d)
    (hf : c.fwdDataMap.lookup d.FwdTo = some ⟨f⟩) (hfn : f ≠ .nil) :
    (termAddrCheckerIter w c addr (.link link)).events.filter Event.isForward =
        [.fwdEmail f (msg.Header.Get "From") (msg.Header.Get "Subject") msg.Body msg.Header
          false] ∧
      (termAddrCheckerIter w c addr (.link link)).c.newMailCnt addr = c.newMailCnt addr + 1 := by
  have hm2 := checkMetaLink_matched (c.wif addr) (u "check") (u "hash") (u "ts") hm
  have hc := termAddrCheckerIter_c_matched w c addr link u hu (by rw [hm2])
  refine ⟨?_, by rw [hc]; exact newMailCnt_incr_self c addr⟩
  have h2 : ts > (c.incrNewMailCnt addr).afterDate := by
    rw [incr_afterDate]; omega
  have hev := getContentMsg_events w (c.wif addr)
    (hmacHex (c.wif addr).sharedKey (contentText (c.wif addr).addr (u "hash") (u "ts"))) ts
  have hd2 : (c.incrNewMailCnt addr).Display.lookup addr = some d := hd
  have hf2 : (c.incrNewMailCnt addr).fwdDataMap.lookup d.FwdTo = some ⟨f⟩ := hf
  unfold termAddrCheckerIter termAddrCheckerLink
  simp only [hu, hm2, if_true]
  unfold termAddrCheckerMatched
  simp only [hts, h2, not_true_eq_false, if_false, hget, hd2, hf2, hev]
  cases f with
  | nil => exact absurd rfl hfn
  | viaHTTPAPI via =>
    simp [Outcome.andThen, Outcome.endSelect, Event.isForward]
  | viaSMTP via =>
    simp [Outcome.andThen, Outcome.endSelect, Event.isForward]

/-- The matching link `freshLink` (timestamp 2000, cutoff 1000) in the example
world: one call of the SMTP forwarding function of `mailbox` with the fields of
`exampleMessage`, and the counter of `addr` goes from 0 to 1. -/
theorem matched_fresh_link_forwards_once_witness :
    (termAddrCheckerIter exampleWorld exampleCommon "addr" (.link freshLink)).events.filter
          Event.isForward =
        [.fwdEmail (.viaSMTP "smtp-json") (exampleMessage.Header.Get "From")
          (exampleMessage.Header.Get "Subject") exampleMessage.Body exampleMessage.Header
          false] ∧
      (termAddrCheckerIter exampleWorld exampleCommon "addr" (.link freshLink)).c.newMailCnt
          "addr" = exampleCommon.newMailCnt "addr" + 1 :=
  matched_fresh_link_forwards_once exampleWorld exampleCommon "addr" freshLink
    (exampleQuery "8d33936589e8dacbec01ff6b4cab94fdeed77d664baf5dab50b6fa677c087312" "h" "2000")
    2000 exampleMessage { Addr := "addr", FwdTo := "mailbox" } (.viaSMTP "smtp-json")
    rfl (by decide!) (by decide!) (by decide!) (by decide!) (by decide!) (by decide!)
    (by decide)

/-- C7, as the code has it. The unread counter is incremented on every matched
link, before the timestamp is looked at: for every link that parses and whose
tag is the Stage-1 digest of the address (whether it is then skipped by the
freshness filter, has an unparsable timestamp, fails to fetch or decrypt, or is
forwarded) the iteration raises the unread counter of the address by exactly 1
and leaves the counters of the other addresses unchanged. -/
theorem matched_link_counts (w : World) (c : common) (addr link : String)
    (u : String → String) (hu : w.urlParse link = some u)
    (hm : u "check" = hmacHex (c.wif addr).sharedKey
      (metaText (c.wif addr).addr (u "hash") (u "ts"))) :
    (termAddrCheckerIter w c addr (.link link)).c.newMailCnt addr = c.newMailCnt addr + 1 ∧
      ∀ other, other ≠ addr →
        (termAddrCheckerIter w c addr (.link link)).c.newMailCnt other = c.newMailCnt other := by
  have hm2 := checkMetaLink_matched (c.wif addr) (u "check") (u "hash") (u "ts") hm
  have hc := termAddrCheckerIter_c_matched w c addr link u hu (by rw [hm2])
  rw [hc]
  exact ⟨newMailCnt_incr_self c addr, fun other h => newMailCnt_incr_other c addr other h⟩

/-- The matched link `staleLink` raises the counter of `addr` by one although
the freshness filter skips it. -/
theorem matched_link_counts_witness :
    (termAddrCheckerIter exampleWorld exampleCommon "addr" (.link staleLink)).c.newMailCnt
        "addr" = exampleCommon.newMailCnt "addr" + 1 :=
  (matched_link_counts exampleWorld exampleCommon "addr" staleLink
    (exampleQuery "3873ca5405271313cef62824b0bff6b9de7ee53b27e08fd3dc3006f420fa3df9" "h" "12")
    rfl (by decide!)).1

/-- C7 fails as stated: `staleLink` parses, its tag matches `addr`, its
timestamp 12 parses and is not after the cutoff 1000, so the freshness filter
skips it (the iteration has no event at all); yet the unread counter of `addr`,
0 before, is 1 afterwards. -/
theorem stale_matched_link_is_counted :
    exampleWorld.urlParse staleLink =
        some (exampleQuery "3873ca5405271313cef62824b0bff6b9de7ee53b27e08fd3dc3006f420fa3df9"
          "h" "12") ∧
      (checkMetaLink (exampleCommon.wif "addr")
        "3873ca5405271313cef62824b0bff6b9de7ee53b27e08fd3dc3006f420fa3df9" "h" "12").2 = true ∧
      ParseInt "12" = some 12 ∧ (12 : Int) ≤ exampleCommon.afterDate ∧
      exampleCommon.newMailCnt "addr" = 0 ∧
      (termAddrCheckerIter exampleWorld exampleCommon "addr" (.link staleLink)).events = [] ∧
      (termAddrCheckerIter exampleWorld exampleCommon "addr" (.link staleLink)).c.newMailCnt
        "addr" = 1 := by
  refine ⟨rfl, by decide!, by decide!, by decide!, by decide!, by decide!, by decide!⟩

/-- C8, as the code has it. An iteration of `termAddrChecker` sends one liveness
update on `viewTop` and then sleeps `intervalWaitDuration` when the link does
not match, and when a matched link is processed up to the forwarding step (its
timestamp parses and is after the cutoff, fetch and decryption succeed, the
address has a display entry, and a forwarding target, if there is one, has
a function). After a link that does not parse, and after a matched link with
an unparsable timestamp, a timestamp not after the cutoff, a fetch or
decryption error or no display entry, the `continue` skips both: there is no
liveness update and no sleep. -/
theorem liveness_update_after_link (w : World) (c : common) (addr link : String) :
    (∀ u, w.urlParse link = some u →
        u "check" ≠ hmacHex (c.wif addr).sharedKey
          (metaText (c.wif addr).addr (u "hash") (u "ts")) →
        (termAddrCheckerIter w c addr (.link link)).events =
          [.viewTop, .sleep c.intervalWaitDuration]) ∧
    (∀ u ts msg d, w.urlParse link = some u →
        u "check" = hmacHex (c.wif addr).sharedKey
          (metaText (c.wif addr).addr (u "hash") (u "ts")) →
        ParseInt (u "ts") = some ts → c.afterDate < ts →
        (getContentMsg w (c.wif addr)
          (hmacHex (c.wif addr).sharedKey (contentText (c.wif addr).addr (u "hash") (u "ts")))
          ts).2 = .ret (some msg, none) →
        c.Display.lookup addr = some d →
        (∀ fn, c.fwdDataMap.lookup d.FwdTo = some fn → fn.fwdEmail ≠ .nil) →
        (termAddrCheckerIter w c addr (.link link)).events.filter
            (fun e => e.isViewTop || e.isSleep) =
          [.viewTop, .sleep c.intervalWaitDuration]) ∧
    (w.urlParse link = none →
        (termAddrCheckerIter w c addr (.link link)).events.filter
            (fun e => e.isViewTop || e.isSleep) = []) ∧
    (∀ u, w.urlParse link = some u →
        u "check" = hmacHex (c.wif addr).sharedKey
          (metaText (c.wif addr).addr (u "hash") (u "ts")) →
        (ParseInt (u "ts") = none ∨
          (∃ ts, ParseInt (u "ts") = some ts ∧
            (ts ≤ c.afterDate ∨
             (∃ m e, (getContentMsg w (c.wif addr)
                (hmacHex (c.wif addr).sharedKey
                  (contentText (c.wif addr).addr (u "hash") (u "ts"))) ts).2 =
                  .ret (m, some e)) ∨
             (∃ m, (getContentMsg w (c.wif addr)
                (hmacHex (c.wif addr).sharedKey
                  (contentText (c.wif addr).addr (u "hash") (u "ts"))) ts).2 =
                  .ret (m, none) ∧ c.Display.lookup addr = none)))) →
        (termAddrCheckerIter w c addr (.link link)).events.filter
            (fun e => e.isViewTop || e.isSleep) = []) := by
  refine ⟨?_, ?_, ?_, ?_⟩
  · intro u hu hne
    have hm : (checkMetaLink (c.wif addr) (u "check") (u "hash") (u "ts")).2 = false := by
      simp [checkMetaLink, hne]
    unfold termAddrCheckerIter termAddrCheckerLink
    simp [hu, hm, Outcome.andThen, Outcome.endSelect]
  · intro u ts msg d hu hm hts hgt hget hd hfn
    have hm2 := checkMetaLink_matched (c.wif addr) (u "check") (u "hash") (u "ts") hm
    have h2 : ts > (c.incrNewMailCnt addr).afterDate := by
      rw [incr_afterDate]; omega
    have hev := getContentMsg_events w (c.wif addr)
      (hmacHex (c.wif addr).sharedKey (contentText (c.wif addr).addr (u "hash") (u "ts"))) ts
    have hd2 : (c.incrNewMailCnt addr).Display.lookup addr = some d := hd
    unfold termAddrCheckerIter termAddrCheckerLink
    simp only [hu, hm2, if_true]
    unfold termAddrCheckerMatched
    simp only [hts, h2, not_true_eq_false, if_false, hget, hd2, hev]
    cases hf : (c.incrNewMailCnt addr).fwdDataMap.lookup d.FwdTo with
    | none =>
      simp [Outcome.andThen, Outcome.endSelect, Event.isViewTop, Event.isSleep]
      rfl
    | some fn =>
      have hnil := hfn fn hf
      obtain ⟨f⟩ := fn
      cases f with
      | nil => exact absurd rfl hnil
      | viaHTTPAPI via =>
        simp [Outcome.andThen, Outcome.endSelect, Event.isViewTop, Event.isSleep]
        rfl
      | viaSMTP via =>
        simp [Outcome.andThen, Outcome.endSelect, Event.isViewTop, Event.isSleep]
        rfl
  · intro hu
    unfold termAddrCheckerIter termAddrCheckerLink
    simp [hu, Outcome.andThen, Outcome.endSelect, Event.isViewTop, Event.isSleep]
  · intro u hu hm hcase
    have hm2 := checkMetaLink_matched (c.wif addr) (u "check") (u "hash") (u "ts") hm
    have hev := getContentMsg_events w (c.wif addr)
      (hmacHex (c.wif addr).sharedKey (contentText (c.wif addr).addr (u "hash") (u "ts")))
    unfold termAddrCheckerIter termAddrCheckerLink
    simp only [hu, hm2, if_true]
    unfold termAddrCheckerMatched
    rcases hcase with hts | ⟨ts, hts, hrest⟩
    · simp [hts, Outcome.andThen, Outcome.endSelect, Event.isViewTop, Event.isSleep]
    · by_cases hle : ts ≤ c.afterDate
      · have h2 : ¬ (ts > (c.incrNewMailCnt addr).afterDate) := by
          rw [incr_afterDate]; omega
        simp [hts, h2, Outcome.andThen, Outcome.endSelect]
      · have h2 : ts > (c.incrNewMailCnt addr).afterDate := by
          rw [incr_afterDate]; omega
        rcases hrest with h | ⟨m, e, hget⟩ | ⟨m, hget, hd⟩
        · exact absurd h hle
        · simp only [hts, h2, not_true_eq_false, if_false, hget, hev]
          simp [Outcome.andThen, Outcome.endSelect, Event.isViewTop, Event.isSleep]
        · have hd2 : (c.incrNewMailCnt addr).Display.lookup addr = none := hd
          simp only [hts, h2, not_true_eq_false, if_false, hget, hev, hd2]
          simp [Outcome.andThen, Outcome.endSelect, Event.isViewTop, Event.isSleep]

/-- The two sides of C8 in the example world: after `foreignLink` (no match) the
events are one liveness update and one sleep, after `staleLink` (skipped by the
freshness filter) there is neither. -/
theorem liveness_update_after_link_witness :
    (termAddrCheckerIter exampleWorld exampleCommon "addr" (.link foreignLink)).events =
        [.viewTop, .sleep exampleCommon.intervalWaitDuration] ∧
      (termAddrCheckerIter exampleWorld exampleCommon "addr" (.link staleLink)).events.filter
        (fun e => e.isViewTop || e.isSleep) = [] :=
  ⟨(liveness_update_after_link exampleWorld exampleCommon "addr" foreignLink).1
      (exampleQuery "00" "h" "2000") rfl (by decide!),
   (liveness_update_after_link exampleWorld exampleCommon "addr" staleLink).2.2.2
      (exampleQuery "3873ca5405271313cef62824b0bff6b9de7ee53b27e08fd3dc3006f420fa3df9" "h" "12")
      rfl (by decide!) (Or.inr ⟨12, by decide!, Or.inl (by decide!)⟩)⟩

/-- C8 fails as stated: `malformedLink` does not parse, and the iteration that
processes it consists of the log line alone and ends in `continue`: no
liveness update is sent on `viewTop` and the checker does not sleep. -/
theorem no_liveness_update_after_malformed_link :
    exampleWorld.urlParse malformedLink = none ∧
      (termAddrCheckerIter exampleWorld exampleCommon "addr" (.link malformedLink)).events =
        [.log "address check parse link url: https://pubkemail.com/%zz"] ∧
      (termAddrCheckerIter exampleWorld exampleCommon "addr" (.link malformedLink)).ctl =
        .cont := by
  refine ⟨rfl, by decide!, by decide!⟩

/-- C9, the code at the shutdown signal. With a wait group of counter 1, the
checker that observes `done` calls `Done` and sleeps, and is still running: the
`break` ended the `select`, not the loop. A link that arrives next is processed
(a liveness update follows the completion signal), and a second observation of
`done` calls `Done` on the counter 0, which panics. With the nil wait group
that `webIndexHandler` stores, the first `Done` panics. -/
theorem termAddrChecker_done_keeps_looping :
    (termAddrChecker "addr" [(exampleWorld, .done)] ⟨exampleCommon, [], .running⟩).status
        = .running ∧
      (termAddrChecker "addr" [(exampleWorld, .done)] ⟨exampleCommon, [], .running⟩).trace
        = [.wgDone "addr", .sleep 10000000000] ∧
      (termAddrChecker "addr" [(exampleWorld, .done), (exampleWorld, .link foreignLink)]
          ⟨exampleCommon, [], .running⟩).trace
        = [.wgDone "addr", .sleep 10000000000, .viewTop, .sleep 10000000000] ∧
      (termAddrChecker "addr" [(exampleWorld, .done), (exampleWorld, .done)]
          ⟨exampleCommon, [], .running⟩).status
        = .panicked ∧
      (termAddrChecker "addr" [(exampleWorld, .done)]
          ⟨exampleCommonNilDone, [], .running⟩).status
        = .panicked := by
  refine ⟨by decide!, by decide!, by decide!, by decide!, by decide!⟩

/-- C17, the code on a malformed payload. In `malformedMailWorld` the content is
fetched and decrypted, and `mail.ReadMessage` rejects the payload:
`getContentMsg` wraps the error but does not return, and `msg.Body` on the nil
`msg` panics. The checker that processes the matching link `freshLink` panics
with it, and the link that follows is never processed. -/
theorem getContentMsg_panics_on_malformed_payload :
    (getContentMsg malformedMailWorld exampleWIF "locator" 2000).2 = .panic ∧
      (termAddrCheckerIter malformedMailWorld exampleCommon "addr" (.link freshLink)).ctl
        = .panic ∧
      (termAddrChecker "addr"
          [(malformedMailWorld, .link freshLink), (exampleWorld, .link foreignLink)]
          ⟨exampleCommon, [], .running⟩).status = .panicked := by
  refine ⟨by decide!, by decide!, by decide!⟩

/-! ## The feed reader -/

/-- C10. Genesis reset in `termReadFeed`: whatever the cursor was, when the page
that is fetched contains an item with GUID `GENESIS-ITEM`, the cursor is 1 after
the iteration, and every subscription queue has received exactly the links of
the items before the first genesis item, in page order: neither the genesis
item nor an item after it is pushed to a queue. -/
theorem genesis_resets_cursor (w : World) (page : Int) (c : common) (items : List Item)
    (hsub : c.addrsDataMap ≠ [])
    (hfetch : w.parseURL (feedURL page 250) = .ok items)
    (hgen : ∃ item ∈ items, item.GUID = "GENESIS-ITEM") :
    (termReadFeedIter w page c).page = 1 ∧
      (termReadFeedIter w page c).c.addrsDataMap = c.addrsDataMap.map fun kd =>
        (kd.1, { kd.2 with feedLinks := kd.2.feedLinks ++
          (items.takeWhile fun it => it.GUID != "GENESIS-ITEM").map Item.Link }) := by
  have hlen : ¬ c.addrsDataMap.length = 0 := by
    intro h0; exact hsub (List.length_eq_zero.mp h0)
  have hitems : ¬ items.length = 0 := by
    intro h0
    obtain ⟨it, hmem, _⟩ := hgen
    rw [List.length_eq_zero.mp h0] at hmem
    simp at hmem
  have h := termReadFeedItems_genesis items page c c.addrsDataMap [] hgen (by simp)
  unfold termReadFeedIter
  simp only [hlen, if_false, hfetch, hitems]
  simpa using h

/-- The genesis reset from cursor 7 on the page of `genesisWorld`, whose second
item is the genesis item: the cursor is 1 and the queue of `addr` holds the
link of the first item only. -/
theorem genesis_resets_cursor_witness :
    (termReadFeedIter genesisWorld 7 exampleCommon).page = 1 ∧
      (termReadFeedIter genesisWorld 7 exampleCommon).c.addrsDataMap =
        exampleCommon.addrsDataMap.map fun kd =>
          (kd.1, { kd.2 with feedLinks := kd.2.feedLinks ++
            ([⟨"guid-1", "link-1"⟩, ⟨"GENESIS-ITEM", "link-2"⟩, ⟨"guid-3", "link-3"⟩].takeWhile
              fun it => it.GUID != "GENESIS-ITEM").map Item.Link }) :=
  genesis_resets_cursor genesisWorld 7 exampleCommon
    [⟨"guid-1", "link-1"⟩, ⟨"GENESIS-ITEM", "link-2"⟩, ⟨"guid-3", "link-3"⟩]
    (by decide) rfl ⟨⟨"GENESIS-ITEM", "link-2"⟩, by decide, rfl⟩

/-- C11, the code on an empty page. From cursor 5, with one subscription and a
fetched page of zero items, the iteration sets the cursor to 1 and sleeps the
idle interval of five seconds, and then `termReadFeed` has returned: the
`break` leaves the `for` loop. A further round of the schedule changes nothing,
no page is fetched again. -/
theorem termReadFeed_empty_page_returns :
    (termReadFeedIter exampleWorld 5 exampleCommon).page = 1 ∧
      (termReadFeedIter exampleWorld 5 exampleCommon).events =
        [.log "checking...", .httpGet "https://rss.pubkemail.com/feed?page=5&limit=250",
         .sleep 5000000000] ∧
      (termReadFeed [exampleWorld] ⟨5, exampleCommon, [], .running⟩).status = .returned ∧
      termReadFeed [exampleWorld, plainFeedWorld] ⟨5, exampleCommon, [], .running⟩ =
        termReadFeed [exampleWorld] ⟨5, exampleCommon, [], .running⟩ := by
  refine ⟨by decide!, by decide!, by decide!, by decide!⟩

/-- C12. Feed fetch error in `termReadFeed`: whatever the cursor was, when the
fetch of the page fails the cursor becomes 1, the only sleep is the long reset
interval `intervalResetDuration`, the shared data (every queue included) is
unchanged, and the reader is still running: its next iteration starts with a
new fetch, of page 1. -/
theorem fetch_error_resets_and_retries (w w2 : World) (page : Int) (c : common)
    (e : String) (trace : List Event)
    (hsub : c.addrsDataMap ≠ [])
    (hfetch : w.parseURL (feedURL page 250) = .error e) :
    (termReadFeedIter w page c).page = 1 ∧
      (termReadFeedIter w page c).c = c ∧
      (termReadFeedIter w page c).events.filter Event.isSleep =
        [.sleep c.intervalResetDuration] ∧
      (termReadFeedIter w page c).ctl.forStatus = .running ∧
      ∃ rest, (termReadFeed [w, w2] ⟨page, c, trace, .running⟩).trace =
        (termReadFeed [w] ⟨page, c, trace, .running⟩).trace ++
          [.log "checking...", .httpGet (feedURL 1 250)] ++ rest := by
  have hlen : ¬ c.addrsDataMap.length = 0 := by
    intro h0; exact hsub (List.length_eq_zero.mp h0)
  have hiter : termReadFeedIter w page c =
      ⟨1, c, [.log "checking...", .httpGet (feedURL page 250),
        .log ("gathering the feed URL" ++ e), .sleep c.intervalResetDuration], .cont⟩ := by
    unfold termReadFeedIter
    simp [hlen, hfetch]
  refine ⟨by rw [hiter], by rw [hiter], by rw [hiter]; simp [Event.isSleep],
    by rw [hiter]; rfl, ?_⟩
  simp only [termReadFeed, hiter, Ctl.forStatus]
  unfold termReadFeedIter
  simp only [hlen, if_false]
  cases h2 : w2.parseURL (feedURL 1 250) with
  | error e2 =>
    exact ⟨[.log ("gathering the feed URL" ++ e2), .sleep c.intervalResetDuration], by simp⟩
  | ok items =>
    by_cases h0 : items.length = 0
    · exact ⟨[.sleep c.intervalNextDuration], by simp [h0]⟩
    · exact ⟨(termReadFeedItems items 1 c).events ++ [.sleep c.intervalWaitDuration],
        by simp [h0]⟩

/-- The fetch error from cursor 7 in `failingFeedWorld`: cursor 1, data
unchanged, one sleep of 65 seconds, still running. -/
theorem fetch_error_resets_and_retries_witness :
    (termReadFeedIter failingFeedWorld 7 exampleCommon).page = 1 ∧
      (termReadFeedIter failingFeedWorld 7 exampleCommon).c = exampleCommon ∧
      (termReadFeedIter failingFeedWorld 7 exampleCommon).events.filter Event.isSleep =
        [.sleep exampleCommon.intervalResetDuration] ∧
      (termReadFeedIter failingFeedWorld 7 exampleCommon).ctl.forStatus = .running :=
  have h := fetch_error_resets_and_retries failingFeedWorld plainFeedWorld 7 exampleCommon
    "connection refused" [] (by decide) rfl
  ⟨h.1, h.2.1, h.2.2.1, h.2.2.2.1⟩

/-- C13. Fan-out order in `termReadFeed`: for every fetched page and every set of
subscriptions, the queue of every subscription is extended by the links of the
items before the first genesis item, each once and in page order; all queues
receive the same sequence. -/
theorem fan_out_in_page_order (w : World) (page : Int) (c : common) (items : List Item)
    (hsub : c.addrsDataMap ≠ [])
    (hfetch : w.parseURL (feedURL page 250) = .ok items) :
    (termReadFeedIter w page c).c.addrsDataMap = c.addrsDataMap.map fun kd =>
      (kd.1, { kd.2 with feedLinks := kd.2.feedLinks ++
        (items.takeWhile fun it => it.GUID != "GENESIS-ITEM").map Item.Link }) := by
  have hlen : ¬ c.addrsDataMap.length = 0 := by
    intro h0; exact hsub (List.length_eq_zero.mp h0)
  have h := termReadFeedItems_addrsDataMap items page c c.addrsDataMap [] (by simp)
  unfold termReadFeedIter
  simp only [hlen, if_false, hfetch]
  by_cases h0 : items.length = 0
  · have hnil : items = [] := List.length_eq_zero.mp h0
    subst hnil
    simp
  · simp only [h0, if_false]
    simpa using h

/-- The fan-out of the three-item page of `plainFeedWorld` to the queue of
`addr`. -/
theorem fan_out_in_page_order_witness :
    (termReadFeedIter plainFeedWorld 7 exampleCommon).c.addrsDataMap =
      exampleCommon.addrsDataMap.map fun kd =>
        (kd.1, { kd.2 with feedLinks := kd.2.feedLinks ++
          ([⟨"guid-1", "link-1"⟩, ⟨"guid-2", "link-2"⟩, ⟨"guid-3", "link-3"⟩].takeWhile
            fun it => it.GUID != "GENESIS-ITEM").map Item.Link }) :=
  fan_out_in_page_order plainFeedWorld 7 exampleCommon
    [⟨"guid-1", "link-1"⟩, ⟨"guid-2", "link-2"⟩, ⟨"guid-3", "link-3"⟩] (by decide) rfl

/-- C19. Cursor advance in `termReadFeed`: from cursor `p`, after a fetched page
of `n >= 1` items none of which is the genesis item, the cursor is `p + n`, one
increment for each forwarded item; for `n >= 2` this is not `p + 1`. -/
theorem cursor_advances_per_item (w : World) (page : Int) (c : common) (items : List Item)
    (hsub : c.addrsDataMap ≠ [])
    (hfetch : w.parseURL (feedURL page 250) = .ok items)
    (hne : items ≠ [])
    (hng : ∀ it ∈ items, it.GUID ≠ "GENESIS-ITEM") :
    (termReadFeedIter w page c).page = page + items.length ∧
      (2 ≤ items.length → (termReadFeedIter w page c).page ≠ page + 1) := by
  have hlen : ¬ c.addrsDataMap.length = 0 := by
    intro h0; exact hsub (List.length_eq_zero.mp h0)
  have h0 : ¬ items.length = 0 := fun h => hne (List.length_eq_zero.mp h)
  have h := termReadFeedItems_page items page c hng
  have hp : (termReadFeedIter w page c).page = page + items.length := by
    unfold termReadFeedIter
    simp only [hlen, if_false, hfetch, h0]
    exact h
  refine ⟨hp, fun h2 => ?_⟩
  rw [hp]
  omega

/-- The cursor after the three-item page of `plainFeedWorld`, from 7: it is 10. -/
theorem cursor_advances_per_item_witness :
    (termReadFeedIter plainFeedWorld 7 exampleCommon).page = 7 + (3 : Nat) :=
  (cursor_advances_per_item plainFeedWorld 7 exampleCommon
    [⟨"guid-1", "link-1"⟩, ⟨"guid-2", "link-2"⟩, ⟨"guid-3", "link-3"⟩]
    (by decide) rfl (by decide) (by decide)).1

/-! ## Key derivation -/

/-- C14. Currency classification in `unmarshalWIF`: for a credential whose base58
decoding is `b`, whenever `unmarshalWIF` succeeds the currency tag is fixed by
the first decoded byte alone: 0x80 gives `BTC`, 0xB0 gives `LTC`, 0x9E gives
`XDG`, 0xEF and 0xF1 give `-T-`, and any other byte leaves the tag empty. The
version byte plays no part in the success: when `b` has at least four bytes and
the WIF decoding, the address, the key directory lookup and the shared key
succeed, `unmarshalWIF` succeeds. -/
theorem unmarshalWIF_currency (w : World) (lib : KeyLib) (wifStr : String) (b : List Nat)
    (hb : lib.base58DecodeString wifStr = .ok b) :
    (∀ cred, (unmarshalWIF w lib wifStr).2 = .ret (cred, none) →
      cred.currency =
        if b.headD 0 % 256 = 0x80 then "BTC"
        else if b.headD 0 % 256 = 0xB0 then "LTC"
        else if b.headD 0 % 256 = 0x9E then "XDG"
        else if b.headD 0 % 256 = 0xEF ∨ b.headD 0 % 256 = 0xF1 then "-T-"
        else "") ∧
    (∀ wif addr remPubKey shrKey, 4 ≤ b.length →
      lib.DecodeWIF wifStr = .ok wif →
      lib.NewAddressPubKey wif.SerializePubKey = .ok addr →
      addr.ScriptAddress ≠ [] →
      (remotePublicKey w lib
        (addr.ScriptAddress.drop (addr.ScriptAddress.length - 1))).2 = .ret (.ok remPubKey) →
      (sharedKey lib remPubKey wif.D).2 = .ret (.ok shrKey) →
      ∃ cred, (unmarshalWIF w lib wifStr).2 = .ret (cred, none)) := by
  constructor
  · intro cred hok
    unfold unmarshalWIF at hok
    simp only [hb] at hok
    by_cases hlen : b.length < 4
    · simp [hlen] at hok
    · simp only [hlen, if_false] at hok
      cases hwif : lib.DecodeWIF wifStr with
      | error e => simp [hwif] at hok
      | ok wif =>
        simp only [hwif] at hok
        cases haddr : lib.NewAddressPubKey wif.SerializePubKey with
        | error e => simp [haddr] at hok
        | ok addr =>
          simp only [haddr] at hok
          by_cases hpk : addr.ScriptAddress.length = 0
          · simp [hpk] at hok
          · simp only [hpk, if_false] at hok
            split at hok
            · simp at hok
            · simp at hok
            · split at hok
              · simp at hok
              · simp at hok
              · simp only [GoResult.ret.injEq, Prod.mk.injEq, and_true] at hok
                rw [← hok]
                simp [currencyOfVersion]
  · intro wif addr remPubKey shrKey hlen hwif haddr hpk hrem hsh
    have hlen2 : ¬ b.length < 4 := by omega
    have hpk2 : ¬ addr.ScriptAddress.length = 0 := fun h => hpk (List.length_eq_zero.mp h)
    unfold unmarshalWIF
    simp only [hb, hlen2, if_false, hwif, haddr, hpk2, hrem, hsh]
    exact ⟨_, rfl⟩

/-- The credential `wifOther`, whose version byte 0x42 is in no case of the
switch: `unmarshalWIF` succeeds and the currency tag is empty. -/
theorem unmarshalWIF_currency_witness :
    (∃ cred, (unmarshalWIF exampleWorld exampleLib wifOther).2 = .ret (cred, none)) ∧
      ({ exampleCredential with wif := wifOther, currency := "" } : WIF).currency = "" :=
  have h := unmarshalWIF_currency exampleWorld exampleLib wifOther
    (0x42 :: (List.replicate 31 0 ++ [1, 31, 13, 157, 235])) rfl
  have hok : (unmarshalWIF exampleWorld exampleLib wifOther).2 =
      .ret ({ exampleCredential with wif := wifOther, currency := "" }, none) := by decide!
  ⟨h.2 ⟨[1], false, 0x42, ellipticMarshal S256Gx S256Gy⟩
      ⟨addrOfKeyOne, ellipticMarshal S256Gx S256Gy⟩ (2 :: natToBytes32 S256Gx)
      (ellipticMarshal S256Gx S256Gy) (by decide) rfl rfl (by decide) rfl rfl,
    (h.1 _ hok).trans (by decide)⟩

/-- C16, the code on malformed counterpart keys. `sharedKey` panics on the empty
key (`pubKey[0]`), on an uncompressed key of the wrong length and on an
uncompressed key of the right length that is not on the curve (in both cases
`elliptic.Unmarshal` answers nil coordinates, which `IsOnCurve` dereferences).
An unknown leading byte is rejected with an error, and a valid compressed key
gives the marshalled product. With a key directory that answers an empty key,
`unmarshalWIF` panics. -/
theorem sharedKey_panics_on_malformed_keys :
    sharedKey exampleLib [] [1] = ([], .panic) ∧
      sharedKey exampleLib [4] [1] = ([], .panic) ∧
      sharedKey exampleLib (4 :: List.replicate 64 0) [1] = ([], .panic) ∧
      (sharedKey exampleLib [5] [1]).2 = .ret (.error "the public key is invalid") ∧
      (sharedKey exampleLib (2 :: natToBytes32 S256Gx) [1]).2 =
        .ret (.ok (ellipticMarshal S256Gx S256Gy)) ∧
      (unmarshalWIF exampleWorld emptyKeyLib wifBTC).2 = .panic := by
  refine ⟨rfl, rfl, rfl, rfl, rfl, by decide!⟩

/-! ## The add-WIF request -/

/-- C15. Atomicity of adding a credential: whenever `unmarshalWIF` does not
succeed (it returns an error for bad base58, a decoding shorter than four
bytes, a bad checksum, a key directory error or a rejected counterpart key, or
it panics), the add-WIF case of `webIndexHandler` leaves the subscription map,
the address display map and the unread counters unchanged and starts no
checker. -/
theorem add_wif_failure_changes_nothing (w : World) (lib : KeyLib) (c : common)
    (wifStr : String)
    (hfail : ∀ cred, (unmarshalWIF w lib wifStr).2 ≠ .ret (cred, none)) :
    (webIndexHandlerAddWIF w lib c wifStr).c.addrsDataMap = c.addrsDataMap ∧
      (webIndexHandlerAddWIF w lib c wifStr).c.Display = c.Display ∧
      (webIndexHandlerAddWIF w lib c wifStr).c.addrMail = c.addrMail ∧
      (webIndexHandlerAddWIF w lib c wifStr).events.filter Event.isGo = [] := by
  have hev := unmarshalWIF_events w lib wifStr
  unfold webIndexHandlerAddWIF
  simp only []
  split
  · have hd := webIndexHandlerDeferred_maps c .nil
    simp [hd.1, hd.2.1, hd.2.2.1, hd.2.2.2.2, hev]
  · have hd := webIndexHandlerDeferred_maps c
      (.friendlyErr "Something went wrong. Please Retry.")
    simp [hd.1, hd.2.1, hd.2.2.1, hd.2.2.2.2, hev]
  · next cred heq => exact absurd heq (hfail cred)

/-- The submitted string `2g` decodes to one byte, `unmarshalWIF` answers
`wif is invalid`, and the shared data of the examples keeps its maps. -/
theorem add_wif_failure_changes_nothing_witness :
    (webIndexHandlerAddWIF exampleWorld exampleLib exampleCommon "2g").c.addrsDataMap =
        exampleCommon.addrsDataMap ∧
      (webIndexHandlerAddWIF exampleWorld exampleLib exampleCommon "2g").c.Display =
        exampleCommon.Display ∧
      (webIndexHandlerAddWIF exampleWorld exampleLib exampleCommon "2g").c.addrMail =
        exampleCommon.addrMail ∧
      (webIndexHandlerAddWIF exampleWorld exampleLib exampleCommon "2g").events.filter
        Event.isGo = [] :=
  add_wif_failure_changes_nothing exampleWorld exampleLib exampleCommon "2g" (by
    have h : (unmarshalWIF exampleWorld exampleLib "2g").2 =
        .ret ({}, some "wif is invalid") := by decide!
    intro cred hc
    rw [h] at hc
    simp at hc)

/-- C18, as the code has it. A successful add-WIF request for an address that is
not yet subscribed puts the address into the subscription map, with `isFwd`
telling whether a forwarding target could be assigned (the first key of the
forwarding map, the empty string when the map is empty), and it starts one
checker for the address when `isFwd` holds and none otherwise. -/
theorem add_wif_starts_checker_iff_forwarding (w : World) (lib : KeyLib) (c : common)
    (wifStr : String) (cred : WIF)
    (hok : (unmarshalWIF w lib wifStr).2 = .ret (cred, none))
    (_hnew : c.addrsDataMap.lookup cred.addr = none) :
    (webIndexHandlerAddWIF w lib c wifStr).c.addrsDataMap.lookup cred.addr =
        some { isFwd := firstFwdTo c != "", feedLinks := [], wif := cred } ∧
      (webIndexHandlerAddWIF w lib c wifStr).events.filter Event.isGo =
        if firstFwdTo c = "" then [] else [.goTermAddrChecker cred.addr] := by
  have hev := unmarshalWIF_events w lib wifStr
  unfold webIndexHandlerAddWIF
  simp only [hok]
  by_cases hf : firstFwdTo c = ""
  · simp [hf, webIndexHandlerDeferred, GoMap.lookup_insert_self, hev, Event.isGo]
  · simp [hf, webIndexHandlerDeferred, GoMap.lookup_insert_self, hev, Event.isGo]

/-- The credential `wifBTC` added to the shared data of the examples, where the
forwarding `mailbox` exists: the address is subscribed with `isFwd` and one
checker is started. -/
theorem add_wif_starts_checker_iff_forwarding_witness :
    (webIndexHandlerAddWIF exampleWorld exampleLib exampleCommon wifBTC).c.addrsDataMap.lookup
          exampleCredential.addr =
        some { isFwd := firstFwdTo exampleCommon != "", feedLinks := [],
               wif := exampleCredential } ∧
      (webIndexHandlerAddWIF exampleWorld exampleLib exampleCommon wifBTC).events.filter
          Event.isGo =
        if firstFwdTo exampleCommon = "" then [] else [.goTermAddrChecker exampleCredential.addr] :=
  add_wif_starts_checker_iff_forwarding exampleWorld exampleLib exampleCommon wifBTC
    exampleCredential (by decide!) (by decide)

/-- C18 fails as stated: with no forwarding configured, the credential `wifBTC`
is accepted (`unmarshalWIF` succeeds) and its address is in the subscription
map afterwards, with `isFwd = false`, but no checker is started for it. -/
theorem add_wif_without_forwarding_has_no_checker :
    emptyCommon.fwdDataMap = [] ∧
      (unmarshalWIF exampleWorld exampleLib wifBTC).2 = .ret (exampleCredential, none) ∧
      (webIndexHandlerAddWIF exampleWorld exampleLib emptyCommon wifBTC).c.addrsDataMap =
        [(addrOfKeyOne, { isFwd := false, feedLinks := [], wif := exampleCredential })] ∧
      (webIndexHandlerAddWIF exampleWorld exampleLib emptyCommon wifBTC).events.filter
        Event.isGo = [] := by
  refine ⟨rfl, by decide!, by decide!, by decide!⟩

/-- The same credential submitted twice while a forwarding exists: each request
starts a checker, two for the one address. -/
theorem add_wif_twice_starts_two_checkers :
    ((webIndexHandlerAddWIF exampleWorld exampleLib exampleCommon wifBTC).events ++
      (webIndexHandlerAddWIF exampleWorld exampleLib
        (webIndexHandlerAddWIF exampleWorld exampleLib exampleCommon wifBTC).c
        wifBTC).events).filter Event.isGo =
      [.goTermAddrChecker addrOfKeyOne, .goTermAddrChecker addrOfKeyOne] := by
  decide!

/-! ## Forwarding by SMTP -/

/-- C20. Header layout of the SMTP message built by `fwdSMTPEmail` (from a `via`
whose SMTP part has a `v1`): the message handed to `smtp.SendMail` is one line
`<key>: <value>\r\n` for each header key that is none of To, From and Subject
in any case, then the three lines To, From and Subject in that order, then
`\r\n` and the body (in test mode the body of the JSON, if it has one). The
lines before the last three have no key that is To, From or Subject. -/
theorem fwdSMTPEmail_message_layout (w : World) (via : fwdVia) (s : fwdViaSMTP)
    (v1 : fwdViaSMTPV1) (sender subject body : String) (headers : Header) (isTest : Bool)
    (hs : via.SMTP = some s) (hv : s.V1 = some v1) :
    (fwdSMTPEmail w via sender subject body headers isTest).1 =
        [.sendMail v1.Address
          (match v1.User, v1.Pass with
            | some user, some pass => some (user, pass, beforeColon v1.Address)
            | _, _ => none)
          (if isTest && v1.From != "" then v1.From else sender) v1.To
          (String.join (((headers.map (·.1)).filter
              (fun k => !(lowerEq k "to" || lowerEq k "from" || lowerEq k "subject"))).map
              fun k => k ++ ": " ++ headers.GetKey k ++ "\r\n")
            ++ ("To: " ++ headers.GetKey "To" ++ "\r\n")
            ++ ("From: " ++ headers.GetKey "From" ++ "\r\n")
            ++ ("Subject: " ++ headers.GetKey "Subject" ++ "\r\n")
            ++ "\r\n"
            ++ (if isTest && v1.Body != "" then v1.Body else body))] ∧
      ∀ k ∈ (headers.map (·.1)).filter
          (fun k => !(lowerEq k "to" || lowerEq k "from" || lowerEq k "subject")),
        lowerEq k "to" = false ∧ lowerEq k "from" = false ∧ lowerEq k "subject" = false := by
  constructor
  · unfold fwdSMTPEmail
    simp only [hs, hv, Option.bind]
    rw [smtpHeaderLines_append, smtpHeaderKeys_eq]
    have h3 : smtpHeaderLines headers ["To", "From", "Subject"] =
        ("To: " ++ headers.GetKey "To" ++ "\r\n") ++
          ("From: " ++ headers.GetKey "From" ++ "\r\n") ++
          ("Subject: " ++ headers.GetKey "Subject" ++ "\r\n") := by
      unfold smtpHeaderLines
      apply String.ext
      simp [String.data_append, List.append_assoc]
    rw [h3]
    have hl : smtpHeaderLines headers ((headers.map (·.1)).filter
        (fun k => !(lowerEq k "to" || lowerEq k "from" || lowerEq k "subject"))) =
        String.join (((headers.map (·.1)).filter
          (fun k => !(lowerEq k "to" || lowerEq k "from" || lowerEq k "subject"))).map
          fun k => k ++ ": " ++ headers.GetKey k ++ "\r\n") := by
      unfold smtpHeaderLines
      rw [smtpHeaderLines_foldl]
      apply String.ext
      simp [String.data_append]
    rw [hl]
    congr 2
    apply String.ext
    simp [String.data_append, List.append_assoc]
  · intro k hk
    have h := (List.mem_filter.mp hk).2
    have h2 : (lowerEq k "to" = false ∧ lowerEq k "from" = false) ∧
        lowerEq k "subject" = false := by simpa [not_or] using h
    exact ⟨h2.1.1, h2.1.2, h2.2⟩

/-- The message for `exampleHeaders`, which hold both `to` and `To`: the line of
`X-Mailer`, then To, From, Subject, the empty line and the body. -/
theorem fwdSMTPEmail_message_layout_witness :
    (fwdSMTPEmail exampleWorld exampleVia "carol" "hi" "body" exampleHeaders false).1 =
      [.sendMail "smtp.example.com:25" none "carol" ["me@example.com"]
        "X-Mailer: m\r\nTo: bob\r\nFrom: alice\r\nSubject: hi\r\n\r\nbody"] :=
  (fwdSMTPEmail_message_layout exampleWorld exampleVia
    { V1 := some { To := ["me@example.com"], Address := "smtp.example.com:25" } }
    { To := ["me@example.com"], Address := "smtp.example.com:25" }
    "carol" "hi" "body" exampleHeaders false rfl rfl).1.trans (by decide!)

/-! ## Truncation -/

/-- C21, the code of the truncation. The result of `txtTruncate` always has the
length of the text: `text[:len(text)-3]` drops three bytes and the ellipsis
puts three back, `length` only decides whether that happens. The ten bytes
`abcdefghij` with `length` 5 give the ten bytes `abcdefg...`, which is more
than 5; the row of a 34-byte address in `addrDataMapToString`, cut at 32, still
shows 34 bytes. -/
theorem txtTruncate_keeps_the_length :
    (∀ (text : List Nat) (length : Int), (txtTruncate text length).length = text.length) ∧
    txtTruncate (stringBytes "abcdefghij") 5 = stringBytes "abcdefg..." ∧
    ¬ ((txtTruncate (stringBytes "abcdefghij") 5).length ≤ 5) ∧
    addrDataMapToString [(addrOfKeyOne, { wif := exampleCredential })] =
      stringBytes " BTC mtoKs9V381UAhUia3d7Vb9GNak8Qvmc..." :=
  ⟨txtTruncate_length, by decide!, by decide!, by decide!⟩

/-! ## The forwarding requests -/

/-- C22, the code on a JSON without a forwarding part. The text `{}` decodes,
the `default` case sets the error of an invalid JSON and the handler goes on:
the name `mail-box` is stored in the forwarding map with the nil function and
in the forwarding display. In test mode the nil function is called, a panic.
Stored under the name `mailbox` that the address `addr` forwards to, the nil
function is called by the checker on the next matching link, a panic. -/
theorem forwarding_without_section_is_stored :
    (webIndexHandlerFwd exampleWebLib exampleCommon "mail box" emptyObjectJSON
        false).c.MainContentErrText =
      "The JSON submitted is invalid. Please check and retry." ∧
    (webIndexHandlerFwd exampleWebLib exampleCommon "mail box" emptyObjectJSON
        false).c.fwdDataMap.lookup "mail-box" = some { fwdEmail := .nil } ∧
    (webIndexHandlerFwd exampleWebLib exampleCommon "mail box" emptyObjectJSON
        false).c.FwdDisplays.lookup "mail-box" =
      some { Name := "mail box", JSON := emptyObjectJSON } ∧
    (webIndexHandlerFwd exampleWebLib exampleCommon "mail box" emptyObjectJSON true).ctl =
      .panic ∧
    (termAddrCheckerLink exampleWorld
      (webIndexHandlerFwd exampleWebLib exampleCommon "mailbox" emptyObjectJSON false).c
      "addr" freshLink).ctl = .panic := by
  refine ⟨by decide!, by decide!, by decide!, by decide!, by decide!⟩

/-- C24, the code of the deletion. In `spareCommon` no address forwards to
`spare-box`: the request to delete `spare box` answers that the forwarding was
deleted, and the forwarding map is as before, `spare-box` included. The
forwarding `mailbox`, which `addr` forwards to, is removed from the map. -/
theorem unused_forwarding_is_not_deleted :
    (webIndexHandlerFwd exampleWebLib spareCommon "spare box" "" false).c.MainContentInfoText =
      "You have deleted the Forwarding: spare box." ∧
    (webIndexHandlerFwd exampleWebLib spareCommon "spare box" "" false).c.fwdDataMap.lookup
        "spare-box" = some { fwdEmail := .viaSMTP "smtp-json" } ∧
    (webIndexHandlerFwd exampleWebLib spareCommon "spare box" "" false).c.fwdDataMap =
      spareCommon.fwdDataMap ∧
    (webIndexHandlerFwd exampleWebLib spareCommon "mailbox" "" false).c.fwdDataMap.lookup
        "mailbox" = none := by
  refine ⟨by decide!, by decide!, by decide!, by decide!⟩

/-! ## Forwarding by HTTP API -/

/-- C23, the code on the parameters. For the configurations with the two
parameters `from` and `subject`, the request by POST has the empty body, and
the request by GET has the empty raw query (the `key=k` of the configured URL
is gone as well) and no body: `q.Query().Add` adds to a map that is dropped.
The same parameters sent as a multipart form are in the body. -/
theorem fwdHTTPAPIEmailReq_drops_parameters :
    fwdHTTPAPIEmailReq exampleWebLib httpPostVia "alice@example.com" "hello" "body text"
        exampleMessage.Header false =
      ([], .ret (.ok
        { Method := "POST"
          URL :=
            { Scheme := "https", Host := "api.example.com", Path := "/send",
              RawQuery := "key=k" }
          Host := "api.example.com"
          Body := some "" })) ∧
    fwdHTTPAPIEmailReq exampleWebLib httpGetVia "alice@example.com" "hello" "body text"
        exampleMessage.Header false =
      ([], .ret (.ok
        { Method := "GET"
          URL :=
            { Scheme := "https", Host := "api.example.com", Path := "/send", RawQuery := "" }
          Host := "api.example.com"
          Body := none })) ∧
    fwdHTTPAPIEmailReq exampleWebLib httpFormVia "alice@example.com" "hello" "body text"
        exampleMessage.Header false =
      ([], .ret (.ok
        { Method := "POST"
          URL :=
            { Scheme := "https", Host := "api.example.com", Path := "/send",
              RawQuery := "key=k" }
          Host := "api.example.com"
          Header := [("Content-Type", ["multipart/form-data; boundary=b0"])]
          Body := some "--b0 from=alice@example.com --b0 subject=hello --b0--" })) := by
  refine ⟨by rfl, by rfl, by rfl⟩

end Pubkemail
